import Mathlib

/-!
Verification development for the `llmring/registry` reconciliation engine.

This file is a shallow embedding of the registry's core data flow:
the field classifier and per-field vote accumulation of
`DocumentParser._merge_model_record`, the vote resolution of
`DocumentParser._resolve_votes`, the paid-model filter
`DocumentParser._is_paid_model`, the capability-flag portion of
`DocumentParser._map_models` (all in `src/registry/document_parser.py`),
and the production merge and promotion of `src/registry/promote.py`
(`_merge_model`, `_merge_registry`, `_canonicalize_json`,
`_calculate_hash`, and the data part of the `promote` command).

Python values appearing in model records are modelled by the mutual
inductive type `Val` below.  Python `float` is modelled by `Rat`: every
price and token-count literal appearing in the registry and its test
suite is a short decimal, exactly representable in both IEEE double and
`Rat`, and the code only compares these values, never does arithmetic on
them.  Python's `bool` is a subclass of `int`, so `isinstance(x, int)`
and `isinstance(x, (int, float))` are `True` for booleans and
`True == 1`, `False == 0` hold; the predicates `Val.isNumLike`,
`Val.isIntLike` and the numeric view `Val.toNum` reproduce this.
Dictionaries are modelled as association lists in insertion order with
unique keys, which is exactly the observable behaviour of Python dicts.
-/

mutual

/-- Python value as it occurs in a JSON-shaped model record: `None`,
`bool`, `int`, `float` (modelled as `Rat`), `str`, `list`, `dict`. -/
inductive Val where
  | null
  | bool (b : Bool)
  | int (n : Int)
  | float (q : Rat)
  | str (s : String)
  | arr (elems : ValList)
  | obj (entries : ValObj)

/-- List of Python values (the payload of `Val.arr`). -/
inductive ValList where
  | nil
  | cons (hd : Val) (tl : ValList)

/-- Entries of a Python dict in insertion order (the payload of
`Val.obj`). -/
inductive ValObj where
  | nil
  | cons (key : String) (val : Val) (tl : ValObj)

end

/-- Converts an association list into dict entries. -/
def ValObj.ofList : List (String × Val) → ValObj
  | [] => .nil
  | (k, v) :: rest => .cons k v (ValObj.ofList rest)

/-- Converts dict entries back into an association list. -/
def ValObj.toList : ValObj → List (String × Val)
  | .nil => []
  | .cons k v tl => (k, v) :: ValObj.toList tl

/-- Converts a list of values into `ValList`. -/
def ValList.ofList : List Val → ValList
  | [] => .nil
  | v :: rest => .cons v (ValList.ofList rest)

/-- Python `isinstance(v, (int, float))`: also true for `bool`, since
`bool` subclasses `int`. -/
def Val.isNumLike : Val → Bool
  | .bool _ => true
  | .int _ => true
  | .float _ => true
  | _ => false

/-- Python `isinstance(v, int)`: true for `int` and `bool`. -/
def Val.isIntLike : Val → Bool
  | .bool _ => true
  | .int _ => true
  | _ => false

/-- Python `isinstance(v, bool)`. -/
def Val.isBool : Val → Bool
  | .bool _ => true
  | _ => false

/-- Python `isinstance(v, str)`. -/
def Val.isStr : Val → Bool
  | .str _ => true
  | _ => false

/-- Python `isinstance(v, list)`. -/
def Val.isArr : Val → Bool
  | .arr _ => true
  | _ => false

/-- Python `isinstance(v, dict)`. -/
def Val.isObj : Val → Bool
  | .obj _ => true
  | _ => false

/-- Python `v is None`. -/
def Val.isNull : Val → Bool
  | .null => true
  | _ => false

/-- Numeric value of a number-like Python value (`True` counts as `1`,
`False` as `0`); `0` is a dummy on non-numeric values and is never
relied upon. -/
def Val.toNum : Val → Rat
  | .bool b => if b then 1 else 0
  | .int n => n
  | .float q => q
  | _ => 0

mutual

/-- Structural equality of Python values. -/
def Val.beq : Val → Val → Bool
  | .null, .null => true
  | .bool x, .bool y => x == y
  | .int x, .int y => x == y
  | .float x, .float y => x == y
  | .str x, .str y => x == y
  | .arr l, .arr m => ValList.beq l m
  | .obj l, .obj m => ValObj.beq l m
  | _, _ => false

/-- Structural equality of value lists. -/
def ValList.beq : ValList → ValList → Bool
  | .nil, .nil => true
  | .cons a l, .cons b m => Val.beq a b && ValList.beq l m
  | _, _ => false

/-- Structural equality of dict entries. -/
def ValObj.beq : ValObj → ValObj → Bool
  | .nil, .nil => true
  | .cons k a l, .cons j b m => k == j && Val.beq a b && ValObj.beq l m
  | _, _ => false

end

/-- Python `==` between two record values, as used by
`collections.Counter` to group votes in `_resolve_votes`: number-like
values (including booleans) compare by numeric value, strings by
content, `None` only to `None`.  Containers compare elementwise in
Python; this is modelled by structural equality, which agrees on every
container the pipeline produces — container votes never reach the
numerically-grouped resolver branches anyway, since those filter votes
to numeric or boolean values first. -/
def Val.pyEq (a b : Val) : Bool :=
  if a.isNumLike && b.isNumLike then decide (a.toNum = b.toNum)
  else
    match a, b with
    | .null, .null => true
    | .str x, .str y => x == y
    | .arr x, .arr y => Val.beq (.arr x) (.arr y)
    | .obj x, .obj y => Val.beq (.obj x) (.obj y)
    | _, _ => false

/-- Python `v == 0` as used in `_resolve_votes`: true of `0`, `0.0` and
`False`; false of strings, lists and `None`. -/
def Val.pyEqZero (v : Val) : Bool := v.isNumLike && decide (v.toNum = 0)

/-- Whether the first character list is a prefix of the second. -/
def charsPrefix : List Char → List Char → Bool
  | [], _ => true
  | _ :: _, [] => false
  | c :: cs, d :: ds => c == d && charsPrefix cs ds

/-- Whether the first character list contains the second as a contiguous
substring. -/
def charsContains : List Char → List Char → Bool
  | _, [] => true
  | [], _ :: _ => false
  | c :: cs, pat => charsPrefix pat (c :: cs) || charsContains cs pat

/-- Python `pat in s` on strings (substring test). -/
def strContains (s pat : String) : Bool := charsContains s.data pat.data

/-- Python `s.startswith(pat)`. -/
def strStarts (s pat : String) : Bool := charsPrefix pat.data s.data

/-- Lexicographic strict order on character lists (by Unicode code
point), as used by `sort_keys=True` in `json.dumps`. -/
def charsLt : List Char → List Char → Bool
  | [], [] => false
  | [], _ :: _ => true
  | _ :: _, [] => false
  | c :: cs, d :: ds => c.toNat < d.toNat || (c == d && charsLt cs ds)

/-- Lexicographic strict order on strings. -/
def strLtB (a b : String) : Bool := charsLt a.data b.data

/-- First-match lookup in an association list: `d[k]` (as an `Option`)
and `k in d` for a Python dict kept in insertion order. -/
def lookupA {α : Type} : List (String × α) → String → Option α
  | [], _ => none
  | (g, w) :: rest, f => if g = f then some w else lookupA rest f

/-- Python `d.get(k, dflt)`. -/
def getDA {α : Type} (l : List (String × α)) (f : String) (dflt : α) : α :=
  (lookupA l f).getD dflt

/-- Python `d[k] = v`: replace the first binding of `k` in place, or
append a new binding at the end (dicts keep insertion order). -/
def setA {α : Type} : List (String × α) → String → α → List (String × α)
  | [], f, v => [(f, v)]
  | (g, w) :: rest, f, v =>
      if g = f then (f, v) :: rest else (g, w) :: setA rest f v

/-- Python `d.pop(k)` on a unique-key dict: the entries without key `k`. -/
def eraseA {α : Type} (l : List (String × α)) (f : String) : List (String × α) :=
  l.filter (fun p => p.1 ≠ f)

theorem lookupA_setA {α : Type} (l : List (String × α)) (f g : String) (v : α) :
    lookupA (setA l f v) g = if f = g then some v else lookupA l g := by
  induction l with
  | nil =>
    simp only [setA, lookupA]
  | cons p rest ih =>
    obtain ⟨k, w⟩ := p
    by_cases hk : k = f
    · subst hk
      by_cases hg : k = g <;> simp [setA, lookupA, hg]
    · by_cases hg : k = g
      · have hfg : f ≠ g := fun h => hk (hg.trans h.symm)
        have hgf : ¬ g = f := fun h => hfg h.symm
        simp [setA, lookupA, hk, hg, hfg, hgf]
      · simp [setA, lookupA, hk, hg, ih]

theorem setA_same {α : Type} (l : List (String × α)) (f : String) (v : α)
    (h : lookupA l f = some v) : setA l f v = l := by
  induction l with
  | nil => simp [lookupA] at h
  | cons p rest ih =>
    obtain ⟨k, w⟩ := p
    by_cases hk : k = f
    · subst hk
      simp [lookupA] at h
      simp [setA, h]
    · simp [lookupA, hk] at h
      simp [setA, hk, ih h]

theorem lookupA_append {α : Type} (a b : List (String × α)) (f : String) :
    lookupA (a ++ b) f = ((lookupA a f).or (lookupA b f)) := by
  induction a with
  | nil => simp [lookupA]
  | cons p rest ih =>
    obtain ⟨k, w⟩ := p
    by_cases hk : k = f <;> simp [lookupA, hk, ih]

/-- Insertion of one entry into a key-sorted dict (helper for
`sortObjByKey`). -/
def insertObjByKey (k : String) (v : Val) : ValObj → ValObj
  | .nil => .cons k v .nil
  | .cons j w tl =>
      if strLtB k j then .cons k v (.cons j w tl)
      else .cons j w (insertObjByKey k v tl)

/-- Sorts dict entries by key (Unicode code-point order), as
`json.dumps(..., sort_keys=True)` does at each object. -/
def sortObjByKey : ValObj → ValObj
  | .nil => .nil
  | .cons k v tl => insertObjByKey k v (sortObjByKey tl)

mutual

/-- Recursively sorts every dict inside a value by key.  Serialising the
result without further sorting is exactly serialising the original with
`sort_keys=True`. -/
def sortAllVal : Val → Val
  | .null => .null
  | .bool b => .bool b
  | .int n => .int n
  | .float q => .float q
  | .str s => .str s
  | .arr l => .arr (sortAllList l)
  | .obj e => .obj (sortObjByKey (sortAllObj e))

/-- Elementwise `sortAllVal` on a value list. -/
def sortAllList : ValList → ValList
  | .nil => .nil
  | .cons v tl => .cons (sortAllVal v) (sortAllList tl)

/-- Valuewise `sortAllVal` on dict entries. -/
def sortAllObj : ValObj → ValObj
  | .nil => .nil
  | .cons k v tl => .cons k (sortAllVal v) (sortAllObj tl)

end

mutual

/-- Compact JSON text of a value, in entry order, with `(",", ":")`
separators — the serialisation step of `_canonicalize_json`
(`json.dumps(data, separators=(",", ":"), sort_keys=True)`), applied
after `sortAllVal` has ordered every object's keys.  Integers, booleans,
`None` and strings are rendered exactly as `json.dumps` renders them;
the registry's keys and string payloads contain no characters needing
JSON escaping, and non-integral floats (rendered here via `Rat`'s
`toString`) never occur in the concrete catalogues this development
evaluates. -/
def canonVal : Val → List Char
  | .null => "null".data
  | .bool b => if b then "true".data else "false".data
  | .int n => (toString n).data
  | .float q => (toString q).data
  | .str s => '"' :: s.data ++ ['"']
  | .arr l => '[' :: canonList l ++ [']']
  | .obj e => '\x7b' :: canonObj e ++ ['\x7d']

/-- Comma-separated serialisation of array elements. -/
def canonList : ValList → List Char
  | .nil => []
  | .cons v .nil => canonVal v
  | .cons v (.cons w tl) => canonVal v ++ ',' :: canonList (.cons w tl)

/-- Comma-separated serialisation of dict entries. -/
def canonObj : ValObj → List Char
  | .nil => []
  | .cons k v .nil => '"' :: k.data ++ '"' :: ':' :: canonVal v
  | .cons k v (.cons j w tl) =>
      ('"' :: k.data ++ '"' :: ':' :: canonVal v) ++
        ',' :: canonObj (.cons j w tl)

end

/-- The canonical bytes `_canonicalize_json(data)` (RFC8785-style:
sorted keys, compact separators, UTF-8). -/
def canonicalizeJson (v : Val) : List Char := canonVal (sortAllVal v)

/-- Models `_calculate_hash(data)`, i.e.
`hashlib.sha256(_canonicalize_json(data)).hexdigest()`.  SHA-256 is a
fixed deterministic function of the canonical bytes, so two hash values
are equal when their canonical inputs are equal, and differ whenever the
canonical inputs differ, short of an SHA-256 collision.  The development
therefore tracks the hash preimage (the canonical bytes) in place of the
digest. -/
def calculateHash (v : Val) : List Char := canonicalizeJson v

/-- Field classes distinguished by `_merge_model_record` (type legality
of votes) and `_resolve_votes` (resolution rule); the spec's Field
Classifier. -/
inductive FieldClass where
  | price
  | count
  | capabilityBool
  | strClass
  | listClass
  | numClass
  | other
deriving DecidableEq

/-- The scalar string fields recognised by `_merge_model_record`. -/
def stringFieldNames : List String :=
  ["provider", "model_name", "model_id", "display_name", "description",
   "release_date", "deprecation_date", "notes", "speed_tier",
   "intelligence_tier", "model_family", "added_date", "api_endpoint",
   "tool_call_format"]

/-- The list-shaped fields recognised by `_merge_model_record`. -/
def listFieldNames : List String :=
  ["model_aliases", "use_cases", "recommended_use_cases",
   "temperature_values"]

/-- Field classification, following the branch order of
`_merge_model_record` (which `_resolve_votes` mirrors for the price,
token-count and boolean branches): pricing-per-volume names first, then
token counts and the tier-requirement field, then capability/status
flag prefixes, then the fixed string and list field name sets, then the
two bare temperature bounds; anything else is `other`. -/
def classifyField (f : String) : FieldClass :=
  if strContains f "dollars_per_million" || strContains f "cache_storage_cost" then .price
  else if strContains f "_tokens" || f = "requires_tier" then .count
  else if strStarts f "supports_" || strStarts f "is_" || strStarts f "requires_" then .capabilityBool
  else if f ∈ stringFieldNames then .strClass
  else if f ∈ listFieldNames then .listClass
  else if f = "max_temperature" || f = "min_temperature" then .numClass
  else .other

/-- Type legality of one candidate field value as a vote, from the
`is_legal` computation of `_merge_model_record`: price fields accept
`int`/`float` (hence also `bool`), token counts accept `int` (hence also
`bool`), capability flags accept only `bool`, string fields `str`, list
fields `list`, the temperature bounds `int`/`float`; unknown fields
accept any non-`None` value. -/
def isLegalVote (f : String) (v : Val) : Bool :=
  match classifyField f with
  | .price => v.isNumLike
  | .count => v.isIntLike
  | .capabilityBool => v.isBool
  | .strClass => v.isStr
  | .listClass => v.isArr
  | .numClass => v.isNumLike
  | .other => !v.isNull

/-- A model record during accumulation: its plain fields plus the
`"_votes"` bookkeeping dict (`none` when the key is absent), mapping a
field name to its vote list in arrival order. -/
structure LedgerRec where
  fields : List (String × Val)
  votes : Option (List (String × List Val))

/-- Seeding of `"_votes"` on first merge: every non-underscore field of
the existing record contributes its value as the first vote (with no
type check, exactly as in the source). -/
def seedVotes (fields : List (String × Val)) : List (String × List Val) :=
  (fields.filter (fun p => !(strStarts p.1 "_"))).map (fun p => (p.1, [p.2]))

/-- Python `existing["_votes"].setdefault(field, []).append(value)`:
appends a vote to the field's list, creating the entry at the end of the
dict when absent. -/
def appendVote (vs : List (String × List Val)) (f : String) (v : Val) :
    List (String × List Val) :=
  match lookupA vs f with
  | some l => setA vs f (l ++ [v])
  | none => vs ++ [(f, [v])]

/-- One step of the vote-recording loop of `_merge_model_record`:
underscore-prefixed fields are skipped, type-illegal values are dropped
silently, legal values are appended as votes. -/
def recordVote (vs : List (String × List Val)) (p : String × Val) :
    List (String × List Val) :=
  if strStarts p.1 "_" then vs
  else if isLegalVote p.1 p.2 then appendVote vs p.1 p.2
  else vs

/-- `DocumentParser._merge_model_record(existing, new)`: ensures the
vote ledger exists (seeding it from the existing record's own fields on
first merge), then records one vote per type-legal field of the new
candidate record, in the candidate's field order.  The function is
total: malformed fields are simply not counted, never an error. -/
def mergeModelRecord (existing : LedgerRec) (new : List (String × Val)) :
    LedgerRec :=
  let vs0 := match existing.votes with
    | some vs => vs
    | none => seedVotes existing.fields
  { fields := existing.fields, votes := some (new.foldl recordVote vs0) }

/-- Vote list of one field in a ledger record (empty when absent). -/
def votesAt (r : LedgerRec) (f : String) : List Val :=
  match r.votes with
  | some vs => getDA vs f []
  | none => []

/-- Number of votes in `l` equal (under `eq`) to `v` — the multiplicity
`collections.Counter` assigns to `v`'s group. -/
def countBy (eq : Val → Val → Bool) (l : List Val) (v : Val) : Nat :=
  (l.filter (fun w => eq w v)).length

/-- Whether `v`'s group count is maximal among the votes of `l`. -/
def isMaxCountBy (eq : Val → Val → Bool) (l : List Val) (v : Val) : Bool :=
  l.all (fun w => decide (countBy eq l w ≤ countBy eq l v))

/-- Models `Counter(l).most_common(1)[0][0]`: `Counter` keys appear in
first-occurrence order with `eq`-grouping, and `most_common(1)`
(`heapq.nlargest` over the counts) returns the first-inserted key of
maximal multiplicity — that is, the earliest element of `l` whose group
count is maximal. -/
def mostCommonBy (eq : Val → Val → Bool) (l : List Val) : Option Val :=
  l.find? (isMaxCountBy eq l)

/-- The grouping key `str(v) if isinstance(v, (list, dict)) else v` used
by the catch-all branch of `_resolve_votes`; the `str()` text of a
container is modelled by its serialisation, which groups containers the
same way. -/
def otherKey (v : Val) : Val :=
  match v with
  | .arr l => .str (String.mk (canonVal (.arr l)))
  | .obj e => .str (String.mk (canonVal (.obj e)))
  | w => w

/-- Vote equality used by the catch-all branch of `_resolve_votes`. -/
def otherEq (a b : Val) : Bool := Val.pyEq (otherKey a) (otherKey b)

/-- Python `v > 0` guarded by `isinstance(v, (int, float))`, the
positive-vote filter of the pricing branch of `_resolve_votes`. -/
def isPositiveNum (v : Val) : Bool := v.isNumLike && decide (0 < v.toNum)

/-- The pricing branch of `_resolve_votes`: keep only strictly positive
numeric votes and take their most common value; if there are none and
every vote is `0` or `None`, resolve explicitly to `None`; otherwise
the trailing loop of the source scans for a positive vote, finds none,
and leaves the field unset (`none` here). -/
def resolvePriceVotes (valueList : List Val) : Option Val :=
  if !(valueList.filter isPositiveNum).isEmpty then
    mostCommonBy Val.pyEq (valueList.filter isPositiveNum)
  else if valueList.all (fun v => v.pyEqZero || v.isNull) then some .null
  else none

/-- The `requires_tier` sub-branch of `_resolve_votes` (plain majority
over the `int` votes, zero allowed). -/
def resolveTierVotes (valueList : List Val) : Option Val :=
  if !(valueList.filter Val.isIntLike).isEmpty then
    mostCommonBy Val.pyEq (valueList.filter Val.isIntLike)
  else none

/-- The token-count sub-branch of `_resolve_votes`: most common positive
`int` vote, falling back to the most common `int` vote, falling back to
an explicit `None`. -/
def resolveCountVotes (valueList : List Val) : Option Val :=
  if !((valueList.filter Val.isIntLike).filter (fun v => decide (0 < v.toNum))).isEmpty then
    mostCommonBy Val.pyEq
      ((valueList.filter Val.isIntLike).filter (fun v => decide (0 < v.toNum)))
  else if !(valueList.filter Val.isIntLike).isEmpty then
    mostCommonBy Val.pyEq (valueList.filter Val.isIntLike)
  else some .null

/-- The capability-flag branch of `_resolve_votes`: most common boolean
vote, unset when there are no boolean votes. -/
def resolveBoolVotes (valueList : List Val) : Option Val :=
  if !(valueList.filter Val.isBool).isEmpty then
    mostCommonBy Val.pyEq (valueList.filter Val.isBool)
  else none

/-- The catch-all branch of `_resolve_votes`: most common non-`None`
vote under the `str()`-keyed grouping, unset when every vote is `None`. -/
def resolveOtherVotes (valueList : List Val) : Option Val :=
  if !(valueList.filter (fun v => !v.isNull)).isEmpty then
    mostCommonBy otherEq (valueList.filter (fun v => !v.isNull))
  else none

/-- Per-field resolution rule of `_resolve_votes` (`if not value_list:
continue` and the four field-class branches); `none` means the field is
left out of the resolved record. -/
def resolveField (f : String) (valueList : List Val) : Option Val :=
  if valueList.isEmpty then none
  else if strContains f "dollars_per_million" || strContains f "cache_storage_cost" then
    resolvePriceVotes valueList
  else if strContains f "_tokens" || f = "requires_tier" then
    if f = "requires_tier" then resolveTierVotes valueList
    else resolveCountVotes valueList
  else if strStarts f "supports_" || strStarts f "is_" || strStarts f "requires_" then
    resolveBoolVotes valueList
  else resolveOtherVotes valueList

/-- `DocumentParser._resolve_votes` for one model: a record that never
went through a second merge has no `"_votes"` key and passes through
unchanged; otherwise each voted field resolves by `resolveField`, in
ledger order, and fields resolving to "unset" are omitted. -/
def resolveVotesRec (m : LedgerRec) : List (String × Val) :=
  match m.votes with
  | none => m.fields
  | some vs => vs.filterMap (fun p => (resolveField p.1 p.2).map (fun v => (p.1, v)))

/-- Value of a decimal digit character. -/
def digitVal (c : Char) : Nat := c.toNat - 48

/-- Reads an all-digit character list as a natural number; `none` on any
non-digit. -/
def digitsVal : List Char → Nat → Option Nat
  | [], acc => some acc
  | c :: cs, acc =>
      if c.isDigit then digitsVal cs (acc * 10 + digitVal c) else none

/-- Splits a character list at the first `'.'`. -/
def splitAtDot : List Char → List Char × Option (List Char)
  | [] => ([], none)
  | '.' :: rest => ([], some rest)
  | c :: rest =>
      let p := splitAtDot rest
      (c :: p.1, p.2)

/-- Python `float(s)` on the decimal forms that occur in model records:
optional sign, digits, optional fractional part (at least one digit
overall).  Exponent, infinity and NaN spellings never occur in the
records this code consumes and are not modelled. -/
def pyFloatOfString (s : String) : Option Rat :=
  let afterSign : Bool × List Char :=
    match s.data with
    | '-' :: r => (true, r)
    | '+' :: r => (false, r)
    | r => (false, r)
  let p := splitAtDot afterSign.2
  let signed : Rat → Rat := fun q => if afterSign.1 then -q else q
  match p.2 with
  | none =>
      if p.1.isEmpty then none
      else (digitsVal p.1 0).map (fun n => signed (n : Rat))
  | some fp =>
      if p.1.isEmpty && fp.isEmpty then none
      else
        match digitsVal p.1 0, digitsVal fp 0 with
        | some a, some b =>
            some (signed (mkRat (a * 10 ^ fp.length + b) (10 ^ fp.length)))
        | _, _ => none

/-- Python `float(v)` with `TypeError`/`ValueError` mapped to `none`:
numbers and booleans convert, numeric strings parse, everything else
(including `None`) raises. -/
def pyFloat? : Val → Option Rat
  | .bool b => some (if b then 1 else 0)
  | .int n => some (n : Rat)
  | .float q => some q
  | .str s => pyFloatOfString s
  | _ => none

/-- Python `int(s)` string forms: optional sign then digits only. -/
def pyIntOfString (s : String) : Option Int :=
  let afterSign : Bool × List Char :=
    match s.data with
    | '-' :: r => (true, r)
    | '+' :: r => (false, r)
    | r => (false, r)
  if afterSign.2.isEmpty then none
  else (digitsVal afterSign.2 0).map
    (fun n => if afterSign.1 then -(n : Int) else (n : Int))

/-- Python `int(v)` with `TypeError`/`ValueError` mapped to `none`;
`int` of a float truncates toward zero. -/
def pyInt? : Val → Option Int
  | .bool b => some (if b then 1 else 0)
  | .int n => some n
  | .float q => some (q.num / (q.den : Int))
  | .str s => pyIntOfString s
  | _ => none

/-- `DocumentParser._is_paid_model` on a dict record: both base prices
are fetched with default `0`, converted with `float(...)` (exceptions
give `False`), and must be strictly positive.  The `ModelInfo` branch of
the source reads the same two attributes, which a constructed
`ModelInfo` always carries as positive floats, so this dict branch is
the general case. -/
def isPaidModel (md : List (String × Val)) : Bool :=
  match pyFloat? (getDA md "dollars_per_million_tokens_input" (.int 0)),
        pyFloat? (getDA md "dollars_per_million_tokens_output" (.int 0)) with
  | some i, some o => decide (0 < i) && decide (0 < o)
  | _, _ => false

/-- `DocumentParser._filter_paid_models`. -/
def filterPaidModels (models : List (List (String × Val))) :
    List (List (String × Val)) :=
  models.filter isPaidModel

/-- Python `bool(v)` (truthiness). -/
def pyTruthy : Val → Bool
  | .null => false
  | .bool b => b
  | .int n => decide (n ≠ 0)
  | .float q => decide (q ≠ 0)
  | .str s => !s.data.isEmpty
  | .arr .nil => false
  | .arr (.cons _ _) => true
  | .obj .nil => false
  | .obj (.cons _ _ _) => true

/-- `_coerce_optional_float` of `_map_models`: `None` for a missing or
unconvertible value, for a negative value, and (unless `allowZero`) for
an exact zero. -/
def coerceOptionalFloat (v : Val) (allowZero : Bool) : Option Rat :=
  match pyFloat? v with
  | none => none
  | some q => if q < 0 then none else if !allowZero && decide (q = 0) then none else some q

/-- `_coerce_optional_int` of `_map_models`. -/
def coerceOptionalInt (v : Val) (allowZero : Bool) : Option Int :=
  match pyInt? v with
  | none => none
  | some n => if n < 0 then none else if !allowZero && n == 0 then none else some n

/-- The boolean capability flags of the final `ModelInfo` record. -/
structure CapFlags where
  supports_vision : Bool
  supports_function_calling : Bool
  supports_json_mode : Bool
  supports_parallel_tool_calls : Bool
  supports_streaming : Bool
  supports_audio : Bool
  supports_documents : Bool
  supports_json_schema : Bool
  supports_logprobs : Bool
  supports_multiple_responses : Bool
  supports_caching : Bool
  supports_thinking : Bool
  supports_long_context_pricing : Bool
  is_reasoning_model : Bool
  supports_temperature : Bool
  supports_system_message : Bool
  supports_pdf_input : Bool
  supports_tool_choice : Bool
  requires_flat_input : Bool
  requires_waitlist : Bool
  is_active : Bool

/-- The capability-flag portion of `DocumentParser._map_models` for one
resolved record: each flag passed to the `ModelInfo` constructor is
`bool(model_data.get(name, default))` with the defaults of the source
(`supports_streaming` and `is_active` default `True`, the others
`False`); `supports_caching` and `supports_thinking` are additionally
forced by the presence of the corresponding coerced pricing evidence and
are always `True` for provider `"anthropic"`;
`supports_long_context_pricing` is forced by long-context pricing or
threshold evidence.  Flags the constructor call does not pass
(`supports_temperature`, `supports_system_message`,
`supports_pdf_input`, `supports_tool_choice`, `requires_flat_input`)
keep their `ModelInfo` dataclass defaults whatever the resolved record
says. -/
def buildCapFlags (md : List (String × Val)) : CapFlags :=
  let isAnthropic : Bool :=
    match lookupA md "provider" with
    | some (.str s) => s = "anthropic"
    | _ => false
  let cachedIn := coerceOptionalFloat (getDA md "dollars_per_million_tokens_cached_input" .null) false
  let cacheW5 := coerceOptionalFloat (getDA md "dollars_per_million_tokens_cache_write_5m" .null) false
  let cacheW1 := coerceOptionalFloat (getDA md "dollars_per_million_tokens_cache_write_1h" .null) false
  let cacheRead := coerceOptionalFloat (getDA md "dollars_per_million_tokens_cache_read" .null) false
  let cacheStorage := coerceOptionalFloat (getDA md "cache_storage_cost_per_million_tokens_per_hour" .null) true
  let longIn := coerceOptionalFloat (getDA md "dollars_per_million_tokens_input_long_context" .null) false
  let longOut := coerceOptionalFloat (getDA md "dollars_per_million_tokens_output_long_context" .null) false
  let thinkingOut := coerceOptionalFloat (getDA md "dollars_per_million_tokens_output_thinking" .null) false
  let longThreshold := coerceOptionalInt (getDA md "long_context_threshold_tokens" .null) false
  let cachingFlag :=
    pyTruthy (getDA md "supports_caching" (.bool false)) ||
      (cachedIn.isSome || cacheW5.isSome || cacheW1.isSome ||
        cacheRead.isSome || cacheStorage.isSome)
  let thinkingFlag :=
    pyTruthy (getDA md "supports_thinking" (.bool false)) || thinkingOut.isSome
  let longContextFlag :=
    pyTruthy (getDA md "supports_long_context_pricing" (.bool false)) ||
      (longIn.isSome || longOut.isSome || longThreshold.isSome)
  { supports_vision := pyTruthy (getDA md "supports_vision" (.bool false))
    supports_function_calling := pyTruthy (getDA md "supports_function_calling" (.bool false))
    supports_json_mode := pyTruthy (getDA md "supports_json_mode" (.bool false))
    supports_parallel_tool_calls := pyTruthy (getDA md "supports_parallel_tool_calls" (.bool false))
    supports_streaming := pyTruthy (getDA md "supports_streaming" (.bool true))
    supports_audio := pyTruthy (getDA md "supports_audio" (.bool false))
    supports_documents := pyTruthy (getDA md "supports_documents" (.bool false))
    supports_json_schema := pyTruthy (getDA md "supports_json_schema" (.bool false))
    supports_logprobs := pyTruthy (getDA md "supports_logprobs" (.bool false))
    supports_multiple_responses := pyTruthy (getDA md "supports_multiple_responses" (.bool false))
    supports_caching := if isAnthropic then true else cachingFlag
    supports_thinking := if isAnthropic then true else thinkingFlag
    supports_long_context_pricing := longContextFlag
    is_reasoning_model := pyTruthy (getDA md "is_reasoning_model" (.bool false))
    supports_temperature := true
    supports_system_message := true
    supports_pdf_input := false
    supports_tool_choice := true
    requires_flat_input := false
    requires_waitlist := pyTruthy (getDA md "requires_waitlist" (.bool false))
    is_active := pyTruthy (getDA md "is_active" (.bool true)) }

/-- `PRICING_FIELDS` of `promote.py`, in source order.  Python keeps
them in a `set`, whose iteration order is unspecified; the fields are
pairwise distinct, so the merged dict's key-value content does not
depend on the order and all theorems below speak about lookups. -/
def PRICING_FIELDS : List String :=
  ["dollars_per_million_tokens_input",
   "dollars_per_million_tokens_output",
   "dollars_per_million_tokens_cached_input",
   "dollars_per_million_tokens_cache_write_5m",
   "dollars_per_million_tokens_cache_write_1h",
   "dollars_per_million_tokens_cache_read",
   "dollars_per_million_tokens_input_long_context",
   "dollars_per_million_tokens_output_long_context",
   "dollars_per_million_tokens_output_thinking",
   "cache_storage_cost_per_million_tokens_per_hour",
   "long_context_threshold_tokens"]

/-- `CAPABILITY_FIELDS` of `promote.py`, in source order. -/
def CAPABILITY_FIELDS : List String :=
  ["supports_vision",
   "supports_function_calling",
   "supports_json_mode",
   "supports_parallel_tool_calls",
   "supports_streaming",
   "supports_audio",
   "supports_documents",
   "supports_json_schema",
   "supports_logprobs",
   "supports_multiple_responses",
   "supports_caching",
   "supports_thinking",
   "supports_long_context_pricing",
   "supports_temperature",
   "supports_system_message",
   "supports_pdf_input",
   "supports_tool_choice",
   "is_reasoning_model",
   "is_active",
   "deprecated_date",
   "release_date",
   "max_input_tokens",
   "max_output_tokens",
   "max_temperature",
   "min_temperature",
   "max_tools",
   "temperature_values",
   "speed_tier",
   "intelligence_tier",
   "requires_tier",
   "requires_waitlist",
   "model_family",
   "recommended_use_cases",
   "api_endpoint",
   "requires_flat_input",
   "tool_call_format"]

/-- `UPDATE_FIELDS = PRICING_FIELDS | CAPABILITY_FIELDS` (the two sets
are disjoint, so list append has the same membership). -/
def UPDATE_FIELDS : List String := PRICING_FIELDS ++ CAPABILITY_FIELDS

/-- One iteration of the update loop of `_merge_model`: overwrite the
accumulated record at `f` when the draft carries a non-`None` value for
`f`. -/
def mergeStep (draft : List (String × Val)) (acc : List (String × Val))
    (f : String) : List (String × Val) :=
  match lookupA draft f with
  | some v => if v.isNull then acc else setA acc f v
  | none => acc

/-- `promote._merge_model(current, draft)`: start from a copy of the
current record and overwrite every `UPDATE_FIELDS` member that is
present in the draft with a non-`None` value; all other fields keep the
current record's value. -/
def mergeModel (current draft : List (String × Val)) : List (String × Val) :=
  UPDATE_FIELDS.foldl (mergeStep draft) current

/-- Entries of a model record held as a `Val`; in Python a non-dict
model value raises `TypeError` inside `_merge_model`, so theorems
restrict to object-valued records where it matters. -/
def asObjList : Val → List (String × Val)
  | .obj e => e.toList
  | _ => []

/-- `_merge_model` on `Val`-held records. -/
def mergeModelVal (cm dm : Val) : Val :=
  .obj (ValObj.ofList (mergeModel (asObjList cm) (asObjList dm)))

/-- The model-merging loop of `_merge_registry`: fold the draft models
into a copy of the current models, merging keys that exist in the
current models and inserting the rest verbatim.  The membership test and
the merge source are the original current models, exactly as in the
source. -/
def mergeModelsAux (currentModels : List (String × Val)) :
    List (String × Val) → List (String × Val) → List (String × Val)
  | acc, [] => acc
  | acc, (k, dm) :: rest =>
      let newAcc := match lookupA currentModels k with
        | some cm => setA acc k (mergeModelVal cm dm)
        | none => setA acc k dm
      mergeModelsAux currentModels newAcc rest

/-- The merged models dict of `_merge_registry`. -/
def mergeModelsMap (currentModels draftModels : List (String × Val)) :
    List (String × Val) :=
  mergeModelsAux currentModels currentModels draftModels

/-- The models dict of a registry: `reg.get("models", {})`.  A present
non-dict value would raise `TypeError` on the subsequent `.items()` in
Python and is outside the modelled domain (drafts are validated to
carry a dict of models before promotion). -/
def getModels (reg : List (String × Val)) : List (String × Val) :=
  match lookupA reg "models" with
  | some (.obj m) => m.toList
  | _ => []

/-- `promote._merge_registry(current, draft)`: copy the current
registry, replace its models dict by the merged models, then overwrite
`extraction_date` and `sources` from the draft when present. -/
def mergeRegistry (current draft : List (String × Val)) :
    List (String × Val) :=
  let m1 := setA current "models"
    (.obj (ValObj.ofList (mergeModelsMap (getModels current) (getModels draft))))
  let m2 := match lookupA draft "extraction_date" with
    | some v => setA m1 "extraction_date" v
    | none => m1
  match lookupA draft "sources" with
  | some v => setA m2 "sources" v
  | none => m2

/-- The version/timestamp/hash stamping of a promoted registry, from
`promote` lines 283-285: set `version`, set `updated_at`, then store
`_calculate_hash` of the record as it stands at that moment — including
any `content_sha256_jcs` field left over from a previously published
catalogue — under `content_sha256_jcs`. -/
def stampAndHash (dataToPromote : List (String × Val)) (newVersion : Int)
    (updatedAt : String) : List (String × Val) :=
  let d1 := setA dataToPromote "version" (.int newVersion)
  let d2 := setA d1 "updated_at" (.str updatedAt)
  setA d2 "content_sha256_jcs" (.str (String.mk (calculateHash (.obj (ValObj.ofList d2)))))

/-- Outcome of one provider's promotion when a published registry
already exists: either the no-op skip, or the new version together with
the record that is written to `models/`, `pages/` and the versioned
archive. -/
inductive PromoteOutcome where
  | skipped
  | promoted (newVersion : Int) (published : List (String × Val))

/-- The data flow of `promote` for one provider when
`pages/<provider>/models.json` exists (lines 254-299): merge the draft
into the current registry; compare `_calculate_hash` of the two models
dicts and skip when they agree; otherwise bump the version and stamp
the merged record. -/
def promoteWithCurrent (currentData draftData : List (String × Val))
    (currentVersion : Int) (updatedAt : String) : PromoteOutcome :=
  if calculateHash (.obj (ValObj.ofList (getModels currentData))) =
      calculateHash (.obj (ValObj.ofList (getModels (mergeRegistry currentData draftData))))
  then .skipped
  else .promoted (currentVersion + 1)
    (stampAndHash (mergeRegistry currentData draftData) (currentVersion + 1) updatedAt)

/-- The data flow of `promote` for one provider with no published
registry (lines 272-299): the draft itself is stamped at the bumped
version. -/
def promoteFresh (draftData : List (String × Val)) (currentVersion : Int)
    (updatedAt : String) : List (String × Val) :=
  stampAndHash draftData (currentVersion + 1) updatedAt

/-- The recomputation the claim (and the repo's own
`test_promote_workflow`) performs on a persisted catalogue: drop the
`content_sha256_jcs` field and hash the rest. -/
def recomputedHash (published : List (String × Val)) : List Char :=
  calculateHash (.obj (ValObj.ofList (eraseA published "content_sha256_jcs")))

/-- The stored content hash of a persisted catalogue, as a string value. -/
def storedHash (published : List (String × Val)) : Option Val :=
  lookupA published "content_sha256_jcs"

/-- The field names of the `ModelInfo` dataclass, in declaration order —
the model schema over which the end-to-end field-classification claims
quantify. -/
def modelInfoFields : List String :=
  ["model_id", "display_name", "description", "use_cases",
   "max_input_tokens", "max_output_tokens", "supports_vision",
   "supports_function_calling", "supports_json_mode",
   "supports_parallel_tool_calls", "dollars_per_million_tokens_input",
   "dollars_per_million_tokens_output", "release_date",
   "deprecation_date", "notes", "dollars_per_million_tokens_cached_input",
   "dollars_per_million_tokens_cache_write_5m",
   "dollars_per_million_tokens_cache_write_1h",
   "dollars_per_million_tokens_cache_read",
   "dollars_per_million_tokens_input_long_context",
   "dollars_per_million_tokens_output_long_context",
   "dollars_per_million_tokens_output_thinking",
   "cache_storage_cost_per_million_tokens_per_hour",
   "long_context_threshold_tokens", "model_aliases",
   "supports_streaming", "supports_audio", "supports_documents",
   "supports_json_schema", "supports_logprobs",
   "supports_multiple_responses", "supports_caching",
   "supports_thinking", "supports_long_context_pricing",
   "is_reasoning_model", "supports_temperature",
   "supports_system_message", "supports_pdf_input", "api_endpoint",
   "requires_flat_input", "temperature_values", "max_temperature",
   "min_temperature", "max_tools", "supports_tool_choice",
   "tool_call_format", "speed_tier", "intelligence_tier",
   "requires_tier", "requires_waitlist", "model_family",
   "recommended_use_cases", "is_active", "added_date"]

/-- Whether a class is one of the three update-relevant classes named by
the end-to-end consistency claim. -/
def isUpdateClass (c : FieldClass) : Bool :=
  match c with
  | .price => true
  | .count => true
  | .capabilityBool => true
  | _ => false

theorem ValObj.toList_ofList (l : List (String × Val)) :
    (ValObj.ofList l).toList = l := by
  induction l with
  | nil => rfl
  | cons p rest ih => cases p; simp [ValObj.ofList, ValObj.toList, ih]

theorem ValObj.ofList_toList : (e : ValObj) → ValObj.ofList e.toList = e
  | .nil => rfl
  | .cons k v tl => by simp [ValObj.ofList, ValObj.toList, ValObj.ofList_toList tl]

theorem lookupA_eq_none_iff {α : Type} (l : List (String × α)) (k : String) :
    lookupA l k = none ↔ k ∉ l.map Prod.fst := by
  induction l with
  | nil => simp [lookupA]
  | cons p rest ih =>
    obtain ⟨g, w⟩ := p
    by_cases hg : g = k
    · subst hg; simp [lookupA]
    · have hkg : ¬ k = g := fun h => hg h.symm
      simp only [lookupA, if_neg hg, List.map_cons, List.mem_cons, ih]
      tauto

theorem lookupA_of_mem_nodup {α : Type} (l : List (String × α)) (k : String)
    (v : α) (hm : (k, v) ∈ l) (hnd : (l.map Prod.fst).Nodup) :
    lookupA l k = some v := by
  induction l with
  | nil => simp at hm
  | cons p rest ih =>
    obtain ⟨g, w⟩ := p
    have hnd2 := List.nodup_cons.mp hnd
    rcases List.mem_cons.mp hm with h | h
    · rw [show g = k from (Prod.ext_iff.mp h.symm).1,
        show w = v from (Prod.ext_iff.mp h.symm).2]
      simp [lookupA]
    · have hg : g ≠ k := by
        intro hgk
        exact hnd2.1 (List.mem_map.mpr ⟨(k, v), h, by simp [hgk]⟩)
      simp [lookupA, hg]
      exact ih h hnd2.2

/-- Whether the draft carries a non-`None` value for field `f` — the
overwrite condition `field in draft and draft[field] is not None` of
`_merge_model`. -/
def draftNonNull (d : List (String × Val)) (f : String) : Bool :=
  match lookupA d f with
  | some v => !v.isNull
  | none => false

theorem lookupA_foldl_mergeStep (d : List (String × Val)) (fs : List String)
    (c : List (String × Val)) (f : String) :
    lookupA (fs.foldl (mergeStep d) c) f =
      if f ∈ fs ∧ draftNonNull d f = true then lookupA d f
      else lookupA c f := by
  induction fs generalizing c with
  | nil => simp
  | cons g fs ih =>
    rw [List.foldl_cons, ih]
    by_cases hfs : f ∈ fs ∧ draftNonNull d f = true
    · simp only [hfs, if_true]
      have : f ∈ g :: fs ∧ draftNonNull d f = true := ⟨List.mem_cons_of_mem _ hfs.1, hfs.2⟩
      simp [this]
    · simp only [hfs, if_false]
      by_cases hg : g = f
      · subst hg
        unfold mergeStep
        cases hv : lookupA d g with
        | none =>
          have hnn : draftNonNull d g = false := by simp [draftNonNull, hv]
          simp [hnn]
        | some v =>
          by_cases hnull : v.isNull = true
          · have hnn : draftNonNull d g = false := by simp [draftNonNull, hv, hnull]
            simp [hnull, hnn]
          · have hnn : draftNonNull d g = true := by simp [draftNonNull, hv, hnull]
            simp [hnull, hnn, lookupA_setA, hv]
      · have hcond2 : ¬ ((f = g ∨ f ∈ fs) ∧ draftNonNull d f = true) := by
          rintro ⟨h1 | h1, h2⟩
          · exact hg h1.symm
          · exact hfs ⟨h1, h2⟩
        unfold mergeStep
        cases hv : lookupA d g with
        | none => simp [hcond2]
        | some v =>
          by_cases hnull : v.isNull = true
          · simp [hnull, hcond2]
          · simp [hnull, hcond2, lookupA_setA, hg]

theorem lookupA_mergeModel (c d : List (String × Val)) (f : String) :
    lookupA (mergeModel c d) f =
      if f ∈ UPDATE_FIELDS ∧ draftNonNull d f = true then lookupA d f
      else lookupA c f :=
  lookupA_foldl_mergeStep d UPDATE_FIELDS c f

theorem foldl_fixed {β γ : Type} (step : β → γ → β) (acc : β) (fs : List γ)
    (h : ∀ g ∈ fs, step acc g = acc) : fs.foldl step acc = acc := by
  induction fs with
  | nil => rfl
  | cons g fs ih =>
    rw [List.foldl_cons, h g (List.mem_cons_self g fs)]
    exact ih (fun x hx => h x (List.mem_cons_of_mem _ hx))

theorem mergeModel_noop (x d : List (String × Val))
    (h : ∀ f ∈ UPDATE_FIELDS, draftNonNull d f = true →
      lookupA x f = lookupA d f) : mergeModel x d = x := by
  unfold mergeModel
  apply foldl_fixed
  intro g hg
  unfold mergeStep
  cases hv : lookupA d g with
  | none => rfl
  | some v =>
    show (if v.isNull = true then x else setA x g v) = x
    by_cases hnull : v.isNull = true
    · simp [hnull]
    · have hnn : draftNonNull d g = true := by simp [draftNonNull, hv, hnull]
      rw [if_neg hnull]
      exact setA_same _ _ _ ((h g hg hnn).trans hv)

theorem mergeModel_idem (c d : List (String × Val)) :
    mergeModel (mergeModel c d) d = mergeModel c d := by
  apply mergeModel_noop
  intro f hf hnn
  rw [lookupA_mergeModel, if_pos ⟨hf, hnn⟩]

theorem mergeModel_self (d : List (String × Val)) : mergeModel d d = d :=
  mergeModel_noop d d (fun _ _ _ => rfl)

/-- The record a draft model key resolves to in the merged models dict:
merged with the current record when the key already exists, the draft
record verbatim otherwise. -/
def mergeWith (currentModels : List (String × Val)) (k : String) (dm : Val) :
    Val :=
  match lookupA currentModels k with
  | some cm => mergeModelVal cm dm
  | none => dm

theorem lookupA_mergeModelsAux (cur dr acc : List (String × Val)) (k : String)
    (hnd : (dr.map Prod.fst).Nodup) :
    lookupA (mergeModelsAux cur acc dr) k =
      match lookupA dr k with
      | some dm => some (mergeWith cur k dm)
      | none => lookupA acc k := by
  induction dr generalizing acc with
  | nil => simp [mergeModelsAux, lookupA]
  | cons p rest ih =>
    obtain ⟨g, dm⟩ := p
    have hnd' : (rest.map Prod.fst).Nodup := (List.nodup_cons.mp hnd).2
    have hgrest : g ∉ rest.map Prod.fst := (List.nodup_cons.mp hnd).1
    unfold mergeModelsAux
    by_cases hg : g = k
    · subst hg
      have hrest : lookupA rest g = none := (lookupA_eq_none_iff rest g).mpr hgrest
      cases hcur : lookupA cur g with
      | some cm =>
        simp only [hcur]
        rw [ih _ hnd']
        simp [lookupA, hrest, lookupA_setA, mergeWith, hcur]
      | none =>
        simp only [hcur]
        rw [ih _ hnd']
        simp [lookupA, hrest, lookupA_setA, mergeWith, hcur]
    · cases hcur : lookupA cur g with
      | some cm =>
        simp only [hcur]
        rw [ih _ hnd']
        cases hr : lookupA rest k with
        | some dm2 => simp [lookupA, hg, hr]
        | none => simp [lookupA, hg, hr, lookupA_setA, fun h : g = k => hg h]
      | none =>
        simp only [hcur]
        rw [ih _ hnd']
        cases hr : lookupA rest k with
        | some dm2 => simp [lookupA, hg, hr]
        | none => simp [lookupA, hg, hr, lookupA_setA, fun h : g = k => hg h]

theorem lookupA_mergeModelsMap (cur dr : List (String × Val)) (k : String)
    (hnd : (dr.map Prod.fst).Nodup) :
    lookupA (mergeModelsMap cur dr) k =
      match lookupA dr k with
      | some dm => some (mergeWith cur k dm)
      | none => lookupA cur k :=
  lookupA_mergeModelsAux cur dr cur k hnd

theorem mergeModelVal_idem (cm dm : Val) :
    mergeModelVal (mergeModelVal cm dm) dm = mergeModelVal cm dm := by
  unfold mergeModelVal
  rw [show asObjList (Val.obj (ValObj.ofList (mergeModel (asObjList cm) (asObjList dm)))) =
      mergeModel (asObjList cm) (asObjList dm) from by
    simp [asObjList, ValObj.toList_ofList]]
  rw [mergeModel_idem]

theorem mergeModelVal_self (dm : Val) (hobj : dm.isObj = true) :
    mergeModelVal dm dm = dm := by
  cases dm with
  | obj e =>
    unfold mergeModelVal
    simp [asObjList, mergeModel_self, ValObj.ofList_toList]
  | null => simp [Val.isObj] at hobj
  | bool b => simp [Val.isObj] at hobj
  | int n => simp [Val.isObj] at hobj
  | float q => simp [Val.isObj] at hobj
  | str s => simp [Val.isObj] at hobj
  | arr l => simp [Val.isObj] at hobj

theorem mergeModelVal_fix (cur : List (String × Val)) (k : String) (dm : Val)
    (hobj : dm.isObj = true) :
    mergeModelVal (mergeWith cur k dm) dm = mergeWith cur k dm := by
  unfold mergeWith
  cases hcur : lookupA cur k with
  | some cm => exact mergeModelVal_idem cm dm
  | none => exact mergeModelVal_self dm hobj

theorem mergeModelsAux_fixed (cur dr : List (String × Val))
    (hnd : (dr.map Prod.fst).Nodup)
    (hobj : ∀ p ∈ dr, (p.2).isObj = true) :
    ∀ sub acc, (∀ p ∈ sub, p ∈ dr) → acc = mergeModelsMap cur dr →
      mergeModelsAux (mergeModelsMap cur dr) acc sub = mergeModelsMap cur dr := by
  intro sub
  induction sub with
  | nil =>
    intro acc _ hacc
    simpa [mergeModelsAux] using hacc
  | cons p rest ih =>
    intro acc hsub hacc
    obtain ⟨k, dm⟩ := p
    have hmem : (k, dm) ∈ dr := hsub _ (List.mem_cons_self _ _)
    have hdr : lookupA dr k = some dm := lookupA_of_mem_nodup dr k dm hmem hnd
    have hM1 : lookupA (mergeModelsMap cur dr) k = some (mergeWith cur k dm) := by
      rw [lookupA_mergeModelsMap cur dr k hnd, hdr]
    have hfix : mergeModelVal (mergeWith cur k dm) dm = mergeWith cur k dm :=
      mergeModelVal_fix cur k dm (hobj _ hmem)
    show mergeModelsAux (mergeModelsMap cur dr)
        (match lookupA (mergeModelsMap cur dr) k with
          | some cm => setA acc k (mergeModelVal cm dm)
          | none => setA acc k dm) rest = mergeModelsMap cur dr
    rw [hM1]
    have hstep : setA acc k (mergeModelVal (mergeWith cur k dm) dm) =
        mergeModelsMap cur dr := by
      rw [hfix, hacc]
      exact setA_same _ _ _ hM1
    exact ih _ (fun q hq => hsub q (List.mem_cons_of_mem _ hq)) hstep

theorem mergeModelsMap_twice (cur dr : List (String × Val))
    (hnd : (dr.map Prod.fst).Nodup)
    (hobj : ∀ p ∈ dr, (p.2).isObj = true) :
    mergeModelsMap (mergeModelsMap cur dr) dr = mergeModelsMap cur dr :=
  mergeModelsAux_fixed cur dr hnd hobj dr (mergeModelsMap cur dr)
    (fun _ hq => hq) rfl

theorem getModels_mergeRegistry (cur dr : List (String × Val)) :
    getModels (mergeRegistry cur dr) =
      mergeModelsMap (getModels cur) (getModels dr) := by
  unfold mergeRegistry getModels
  cases hsrc : lookupA dr "sources" with
  | none =>
    cases hed : lookupA dr "extraction_date" with
    | none =>
      simp [lookupA_setA, ValObj.toList_ofList]
    | some v =>
      simp [lookupA_setA, ValObj.toList_ofList,
        (by decide : ¬ ("extraction_date" = "models"))]
  | some v =>
    cases hed : lookupA dr "extraction_date" with
    | none =>
      simp [lookupA_setA, ValObj.toList_ofList,
        (by decide : ¬ ("sources" = "models"))]
    | some w =>
      simp [lookupA_setA, ValObj.toList_ofList,
        (by decide : ¬ ("sources" = "models")),
        (by decide : ¬ ("extraction_date" = "models"))]

theorem lookupA_mergeRegistry_models (cur dr : List (String × Val)) :
    lookupA (mergeRegistry cur dr) "models" =
      some (.obj (ValObj.ofList (mergeModelsMap (getModels cur) (getModels dr)))) := by
  unfold mergeRegistry
  cases hsrc : lookupA dr "sources" with
  | none =>
    cases hed : lookupA dr "extraction_date" with
    | none => simp [lookupA_setA]
    | some v =>
      simp [lookupA_setA, (by decide : ¬ ("extraction_date" = "models"))]
  | some v =>
    cases hed : lookupA dr "extraction_date" with
    | none =>
      simp [lookupA_setA, (by decide : ¬ ("sources" = "models"))]
    | some w =>
      simp [lookupA_setA, (by decide : ¬ ("sources" = "models")),
        (by decide : ¬ ("extraction_date" = "models"))]
theorem mergeRegistry_idem (cur dr : List (String × Val))
    (hnd : ((getModels dr).map Prod.fst).Nodup)
    (hobj : ∀ p ∈ getModels dr, (p.2).isObj = true) :
    mergeRegistry (mergeRegistry cur dr) dr = mergeRegistry cur dr := by
  have hmodels1 := lookupA_mergeRegistry_models cur dr
  have hget1 := getModels_mergeRegistry cur dr
  have htwice := mergeModelsMap_twice (getModels cur) (getModels dr) hnd hobj
  have hed : ∀ v, lookupA dr "extraction_date" = some v →
      lookupA (mergeRegistry cur dr) "extraction_date" = some v := by
    intro v hv
    unfold mergeRegistry
    cases hsrc : lookupA dr "sources" with
    | none => simp [hv, lookupA_setA]
    | some w =>
      simp [hv, lookupA_setA, (by decide : ¬ ("sources" = "extraction_date"))]
  have hsrc : ∀ v, lookupA dr "sources" = some v →
      lookupA (mergeRegistry cur dr) "sources" = some v := by
    intro v hv
    unfold mergeRegistry
    simp [hv, lookupA_setA]
  set M := mergeRegistry cur dr with hM
  unfold mergeRegistry
  rw [hget1, htwice, setA_same _ _ _ hmodels1]
  cases he : lookupA dr "extraction_date" with
  | none =>
    cases hs : lookupA dr "sources" with
    | none => simp only []
    | some w =>
      simp only []
      exact setA_same _ _ _ (hsrc w hs)
  | some v =>
    cases hs : lookupA dr "sources" with
    | none =>
      simp only []
      exact setA_same _ _ _ (hed v he)
    | some w =>
      simp only []
      rw [setA_same _ _ _ (hed v he)]
      exact setA_same _ _ _ (hsrc w hs)

theorem exists_argmax (g : Val → Nat) (l : List Val) (h : l ≠ []) :
    ∃ m ∈ l, ∀ w ∈ l, g w ≤ g m := by
  induction l with
  | nil => simp at h
  | cons x rest ih =>
    cases rest with
    | nil => exact ⟨x, by simp, by simp⟩
    | cons y t =>
      obtain ⟨m, hm, hmax⟩ := ih (by simp)
      by_cases hx : g x ≤ g m
      · refine ⟨m, List.mem_cons_of_mem _ hm, ?_⟩
        intro w hw
        rcases List.mem_cons.mp hw with rfl | hw
        · exact hx
        · exact hmax w hw
      · refine ⟨x, List.mem_cons_self _ _, ?_⟩
        intro w hw
        rcases List.mem_cons.mp hw with rfl | hw
        · exact le_refl _
        · exact le_trans (hmax w hw) (le_of_not_le hx)

theorem mostCommonBy_spec (eq : Val → Val → Bool) (l : List Val)
    (h : l.isEmpty = false) :
    ∃ m, mostCommonBy eq l = some m ∧ m ∈ l ∧
      ∀ w ∈ l, countBy eq l w ≤ countBy eq l m := by
  have hne : l ≠ [] := by cases l <;> simp_all
  obtain ⟨m0, hm0, hmax0⟩ := exists_argmax (countBy eq l) l hne
  have hp : isMaxCountBy eq l m0 = true := by
    unfold isMaxCountBy
    rw [List.all_eq_true]
    intro w hw
    exact decide_eq_true (hmax0 w hw)
  have hfind : (l.find? (isMaxCountBy eq l)).isSome = true := by
    cases hf : l.find? (isMaxCountBy eq l) with
    | some m => rfl
    | none =>
      have := List.find?_eq_none.mp hf m0 hm0
      simp [hp] at this
  obtain ⟨m, hm⟩ := Option.isSome_iff_exists.mp hfind
  have hmem := List.mem_of_find?_eq_some hm
  have hpm := List.find?_some hm
  refine ⟨m, hm, hmem, ?_⟩
  unfold isMaxCountBy at hpm
  rw [List.all_eq_true] at hpm
  intro w hw
  exact of_decide_eq_true (hpm w hw)

theorem find?_earliest (p : Val → Bool) (eq : Val → Val → Bool) :
    ∀ (l : List Val) (b v : Val),
      (∀ x ∈ l, ∀ y, eq x y = true → p x = p y) →
      l.find? p = some b → eq b b = true →
      v ∈ l → p v = true →
      l.findIdx (fun w => eq w b) ≤ l.findIdx (fun w => eq w v) := by
  intro l
  induction l with
  | nil =>
    intro b v _ hf
    simp [List.find?] at hf
  | cons x rest ih =>
    intro b v hcong hf hbb hv hpv
    by_cases hpx : p x = true
    · have hb : b = x := by
        rw [List.find?_cons_of_pos _ hpx] at hf
        exact (Option.some.injEq .. ▸ hf).symm
      subst hb
      rw [List.findIdx_cons]
      simp [hbb]
    · have hpx' : ¬ p x := by simpa using hpx
      have hf' : rest.find? p = some b := by
        rwa [List.find?_cons_of_neg _ hpx'] at hf
      have hpb : p b = true := List.find?_some hf'
      have hxb : eq x b = false := by
        cases hexb : eq x b
        · rfl
        · exact absurd ((hcong x (List.mem_cons_self _ _) b hexb).trans hpb)
            (by simpa using hpx)
      have hxv : eq x v = false := by
        cases hexv : eq x v
        · rfl
        · exact absurd ((hcong x (List.mem_cons_self _ _) v hexv).trans hpv)
            (by simpa using hpx)
      have hvrest : v ∈ rest := by
        rcases List.mem_cons.mp hv with rfl | hh
        · exact absurd hpv (by simpa using hpx)
        · exact hh
      rw [List.findIdx_cons, List.findIdx_cons]
      simp only [hxb, hxv, cond_false]
      have := ih b v (fun x hx => hcong x (List.mem_cons_of_mem _ hx)) hf' hbb hvrest hpv
      omega

theorem pyEq_numlike (a b : Val) (ha : a.isNumLike = true)
    (hb : b.isNumLike = true) :
    Val.pyEq a b = decide (a.toNum = b.toNum) := by
  unfold Val.pyEq
  rw [ha, hb]
  simp

theorem pyEq_mixed_false (w x : Val) (hw : w.isNumLike = false)
    (hx : x.isNumLike = true) : Val.pyEq w x = false := by
  cases w <;> cases x <;> simp_all [Val.isNumLike, Val.pyEq]

theorem pyEq_refl_numlike (a : Val) (ha : a.isNumLike = true) :
    Val.pyEq a a = true := by
  rw [pyEq_numlike a a ha ha]
  simp

theorem countBy_pyEq_congr (l : List Val) (x y : Val)
    (hx : x.isNumLike = true) (hy : y.isNumLike = true)
    (hxy : Val.pyEq x y = true) :
    countBy Val.pyEq l x = countBy Val.pyEq l y := by
  have hnum : x.toNum = y.toNum := by
    rw [pyEq_numlike x y hx hy] at hxy
    exact of_decide_eq_true hxy
  unfold countBy
  congr 1
  apply List.filter_congr
  intro w _
  by_cases hw : w.isNumLike = true
  · rw [pyEq_numlike w x hw hx, pyEq_numlike w y hw hy, hnum]
  · rw [pyEq_mixed_false w x (by simpa using hw) hx,
      pyEq_mixed_false w y (by simpa using hw) hy]

theorem isMaxCountBy_pyEq_congr (l : List Val) (x y : Val)
    (hx : x.isNumLike = true) (hy : y.isNumLike = true)
    (hxy : Val.pyEq x y = true) :
    isMaxCountBy Val.pyEq l x = isMaxCountBy Val.pyEq l y := by
  unfold isMaxCountBy
  rw [countBy_pyEq_congr l x y hx hy hxy]

theorem classify_price_iff (f : String) :
    classifyField f = FieldClass.price ↔
      (strContains f "dollars_per_million" || strContains f "cache_storage_cost") = true := by
  unfold classifyField
  split_ifs <;> simp_all

theorem classify_count_iff (f : String) :
    classifyField f = FieldClass.count ↔
      (strContains f "dollars_per_million" || strContains f "cache_storage_cost") = false ∧
      (strContains f "_tokens" || decide (f = "requires_tier")) = true := by
  unfold classifyField
  split_ifs <;> simp_all
  all_goals intros
  all_goals simp_all

theorem classify_capbool_iff (f : String) :
    classifyField f = FieldClass.capabilityBool ↔
      (strContains f "dollars_per_million" || strContains f "cache_storage_cost") = false ∧
      (strContains f "_tokens" || decide (f = "requires_tier")) = false ∧
      (strStarts f "supports_" || strStarts f "is_" || strStarts f "requires_") = true := by
  unfold classifyField
  split_ifs <;> simp_all
  all_goals intros
  all_goals simp_all

theorem resolveField_price_branch (f : String) (votes : List Val)
    (hg : (strContains f "dollars_per_million" || strContains f "cache_storage_cost") = true)
    (hne : votes.isEmpty = false) :
    resolveField f votes = resolvePriceVotes votes := by
  unfold resolveField
  rw [if_neg (by simp [hne]), if_pos (by simpa using hg)]

theorem resolveField_count_branch (f : String) (votes : List Val)
    (h1 : (strContains f "dollars_per_million" || strContains f "cache_storage_cost") = false)
    (h2 : (strContains f "_tokens" || decide (f = "requires_tier")) = true)
    (htier : ¬ f = "requires_tier")
    (hne : votes.isEmpty = false) :
    resolveField f votes = resolveCountVotes votes := by
  have h1' := by simpa using h1
  unfold resolveField
  rw [if_neg (by simp [hne]), if_neg (by simp [h1'.1, h1'.2]),
    if_pos (by simpa using h2), if_neg htier]

theorem resolveField_bool_branch (f : String) (votes : List Val)
    (h1 : (strContains f "dollars_per_million" || strContains f "cache_storage_cost") = false)
    (h2 : (strContains f "_tokens" || decide (f = "requires_tier")) = false)
    (h3 : (strStarts f "supports_" || strStarts f "is_" || strStarts f "requires_") = true)
    (hne : votes.isEmpty = false) :
    resolveField f votes = resolveBoolVotes votes := by
  have h1' := by simpa using h1
  have h2' := by simpa using h2
  unfold resolveField
  rw [if_neg (by simp [hne]), if_neg (by simp [h1'.1, h1'.2]),
    if_neg (by simp [h2'.1, h2'.2]), if_pos (by simpa using h3)]

theorem find?_all_bool (p : Val → Bool) (b : Bool) :
    ∀ (l : List Val), p (.bool b) = true → p (.bool !b) = false →
      (∀ v ∈ l, v.isBool = true) → (Val.bool b) ∈ l →
      l.find? p = some (Val.bool b) := by
  intro l
  induction l with
  | nil => intro _ _ _ hmem; simp at hmem
  | cons x rest ih =>
    intro hpt hpf hbool hmem
    cases x with
    | bool c =>
      by_cases hc : c = b
      · subst hc
        rw [List.find?_cons_of_pos _ hpt]
      · have hcb : c = !b := by cases b <;> cases c <;> simp_all
        have hmem' : (Val.bool b) ∈ rest := by
          rcases List.mem_cons.mp hmem with h | h
          · exfalso
            injection h with hbc
            exact hc hbc.symm
          · exact h
        subst hcb
        rw [List.find?_cons_of_neg _ (by simp [hpf])]
        exact ih hpt hpf (fun v hv => hbool v (List.mem_cons_of_mem _ hv)) hmem'
    | null => exact absurd (hbool _ (List.mem_cons_self _ _)) (by simp [Val.isBool])
    | int n => exact absurd (hbool _ (List.mem_cons_self _ _)) (by simp [Val.isBool])
    | float q => exact absurd (hbool _ (List.mem_cons_self _ _)) (by simp [Val.isBool])
    | str s => exact absurd (hbool _ (List.mem_cons_self _ _)) (by simp [Val.isBool])
    | arr el => exact absurd (hbool _ (List.mem_cons_self _ _)) (by simp [Val.isBool])
    | obj e => exact absurd (hbool _ (List.mem_cons_self _ _)) (by simp [Val.isBool])

theorem pyEq_bool_bool (a b : Bool) :
    Val.pyEq (.bool a) (.bool b) = (a == b) := by
  cases a <;> cases b <;> simp [Val.pyEq, Val.isNumLike, Val.toNum]

theorem mostCommonBy_bool_majority (l : List Val) (b : Bool)
    (hbool : ∀ v ∈ l, v.isBool = true)
    (hmaj : countBy Val.pyEq l (.bool !b) < countBy Val.pyEq l (.bool b)) :
    mostCommonBy Val.pyEq l = some (Val.bool b) := by
  have hcount : ∀ w ∈ l, countBy Val.pyEq l w ≤ countBy Val.pyEq l (.bool b) := by
    intro w hw
    cases w with
    | bool c =>
      by_cases hc : c = b
      · subst hc; exact le_refl _
      · have : c = !b := by cases b <;> cases c <;> simp_all
        subst this
        exact le_of_lt hmaj
    | null => exact absurd (hbool _ hw) (by simp [Val.isBool])
    | int n => exact absurd (hbool _ hw) (by simp [Val.isBool])
    | float q => exact absurd (hbool _ hw) (by simp [Val.isBool])
    | str s => exact absurd (hbool _ hw) (by simp [Val.isBool])
    | arr el => exact absurd (hbool _ hw) (by simp [Val.isBool])
    | obj e => exact absurd (hbool _ hw) (by simp [Val.isBool])
  have hbmem : (Val.bool b) ∈ l := by
    have hpos : 0 < countBy Val.pyEq l (.bool b) :=
      Nat.lt_of_le_of_lt (Nat.zero_le _) hmaj
    unfold countBy at hpos
    rw [List.length_pos] at hpos
    obtain ⟨w, hw⟩ := List.exists_mem_of_ne_nil _ hpos
    have hwl := (List.mem_filter.mp hw).1
    have hweq := (List.mem_filter.mp hw).2
    cases w with
    | bool c =>
      rw [pyEq_bool_bool] at hweq
      rw [show c = b from by simpa using hweq] at hwl
      exact hwl
    | null => exact absurd (hbool _ hwl) (by simp [Val.isBool])
    | int n => exact absurd (hbool _ hwl) (by simp [Val.isBool])
    | float q => exact absurd (hbool _ hwl) (by simp [Val.isBool])
    | str s => exact absurd (hbool _ hwl) (by simp [Val.isBool])
    | arr el => exact absurd (hbool _ hwl) (by simp [Val.isBool])
    | obj e => exact absurd (hbool _ hwl) (by simp [Val.isBool])
  have hpt : isMaxCountBy Val.pyEq l (.bool b) = true := by
    unfold isMaxCountBy
    rw [List.all_eq_true]
    intro w hw
    exact decide_eq_true (hcount w hw)
  have hpf : isMaxCountBy Val.pyEq l (.bool !b) = false := by
    unfold isMaxCountBy
    cases hall : l.all (fun w => decide (countBy Val.pyEq l w ≤ countBy Val.pyEq l (.bool !b))) with
    | false => rfl
    | true =>
      exfalso
      have hle := of_decide_eq_true (List.all_eq_true.mp hall _ hbmem)
      omega
  exact find?_all_bool _ b l hpt hpf hbool hbmem

theorem pyEq_mixed_false_right (x w : Val) (hx : x.isNumLike = true)
    (hw : w.isNumLike = false) : Val.pyEq x w = false := by
  cases x <;> cases w <;> simp_all [Val.isNumLike, Val.pyEq]

/-- C1: for a model key present in both catalogues, `_merge_model`
produces, at every field, the draft's value exactly when the field is in
`UPDATE_FIELDS` and the draft carries a non-`None` value there (an
explicit `0`, `0.0` or `False` counts as non-`None`), and the current
record's value otherwise — `UPDATE_FIELDS` members missing or `None` in
the draft, and every non-update field, keep the current value. -/
theorem merge_model_field_rule (current draft : List (String × Val)) (f : String) :
    lookupA (mergeModel current draft) f =
      if f ∈ UPDATE_FIELDS ∧ draftNonNull draft f = true then lookupA draft f
      else lookupA current f :=
  lookupA_mergeModel current draft f

/-- C8: the registry merge never deletes — every model key of the
current catalogue is still present after the merge, a key absent from
the draft keeps exactly its current record, and a key present only in
the draft is inserted verbatim. -/
theorem merge_registry_never_deletes (cur dr : List (String × Val)) (k : String)
    (hnd : ((getModels dr).map Prod.fst).Nodup) :
    (lookupA (getModels cur) k ≠ none →
      lookupA (getModels (mergeRegistry cur dr)) k ≠ none) ∧
    (lookupA (getModels dr) k = none →
      lookupA (getModels (mergeRegistry cur dr)) k = lookupA (getModels cur) k) ∧
    (∀ dm, lookupA (getModels cur) k = none →
      lookupA (getModels dr) k = some dm →
      lookupA (getModels (mergeRegistry cur dr)) k = some dm) := by
  rw [getModels_mergeRegistry cur dr]
  rw [lookupA_mergeModelsMap (getModels cur) (getModels dr) k hnd]
  refine ⟨?_, ?_, ?_⟩
  · intro hcur
    cases hdrk : lookupA (getModels dr) k with
    | some dm => simp
    | none => simpa using hcur
  · intro hdrk
    rw [hdrk]
  · intro dm hcur hdrk
    rw [hdrk]
    unfold mergeWith
    rw [hcur]

/-- Concrete catalogues for the C8 witness. -/
def c8cur : List (String × Val) :=
  [("provider", Val.str "openai"),
   ("models", Val.obj (ValObj.ofList
     [("openai:gpt-4o", Val.obj (ValObj.ofList
       [("model_name", Val.str "gpt-4o"),
        ("display_name", Val.str "GPT-4o"),
        ("dollars_per_million_tokens_input", Val.int 5)]))]))]

/-- Concrete draft for the C8 witness. -/
def c8dr : List (String × Val) :=
  [("provider", Val.str "openai"),
   ("models", Val.obj (ValObj.ofList
     [("openai:gpt-5", Val.obj (ValObj.ofList
       [("model_name", Val.str "gpt-5"),
        ("dollars_per_million_tokens_input", Val.int 10)]))]))]

theorem merge_registry_never_deletes_witness :
    ((getModels c8dr).map Prod.fst).Nodup ∧
    lookupA (getModels (mergeRegistry c8cur c8dr)) "openai:gpt-4o" =
      lookupA (getModels c8cur) "openai:gpt-4o" ∧
    lookupA (getModels (mergeRegistry c8cur c8dr)) "openai:gpt-5" =
      some (Val.obj (ValObj.ofList
        [("model_name", Val.str "gpt-5"),
         ("dollars_per_million_tokens_input", Val.int 10)])) :=
  ⟨by decide,
   (merge_registry_never_deletes c8cur c8dr "openai:gpt-4o" (by decide)).2.1 rfl,
   (merge_registry_never_deletes c8cur c8dr "openai:gpt-5" (by decide)).2.2 _ rfl rfl⟩

/-- C7: merging is idempotent — applying `_merge_registry` a second time
with the same draft returns the very same catalogue — and a draft whose
merge leaves the canonical hash of the models dict unchanged makes
`promote` skip: no version bump, nothing written.  The hypotheses state
that the draft's models dict is a real Python dict (unique keys) whose
records are dicts. -/
theorem merge_registry_idempotent_and_noop_skip (cur dr : List (String × Val))
    (hnd : ((getModels dr).map Prod.fst).Nodup)
    (hobj : ∀ p ∈ getModels dr, (p.2).isObj = true) :
    mergeRegistry (mergeRegistry cur dr) dr = mergeRegistry cur dr ∧
    (∀ (ver : Int) (ts : String),
      calculateHash (.obj (ValObj.ofList (getModels cur))) =
        calculateHash (.obj (ValObj.ofList (getModels (mergeRegistry cur dr)))) →
      promoteWithCurrent cur dr ver ts = PromoteOutcome.skipped) := by
  refine ⟨mergeRegistry_idem cur dr hnd hobj, ?_⟩
  intro ver ts h
  unfold promoteWithCurrent
  rw [if_pos h]

/-- Concrete current catalogue for the C7 witness. -/
def c7cur : List (String × Val) :=
  [("provider", Val.str "openai"),
   ("extraction_date", Val.str "2025-01-01"),
   ("models", Val.obj (ValObj.ofList
     [("openai:gpt-4o", Val.obj (ValObj.ofList
       [("model_name", Val.str "gpt-4o"),
        ("display_name", Val.str "GPT-4o"),
        ("dollars_per_million_tokens_input", Val.int 5),
        ("supports_vision", Val.bool true)]))]))]

/-- Concrete draft for the C7 witness. -/
def c7dr : List (String × Val) :=
  [("provider", Val.str "openai"),
   ("extraction_date", Val.str "2025-02-01"),
   ("models", Val.obj (ValObj.ofList
     [("openai:gpt-4o", Val.obj (ValObj.ofList
       [("model_name", Val.str "gpt-4o"),
        ("dollars_per_million_tokens_input", Val.int 2)])),
      ("openai:gpt-5", Val.obj (ValObj.ofList
       [("model_name", Val.str "gpt-5"),
        ("dollars_per_million_tokens_input", Val.int 10)]))]))]

theorem merge_registry_idempotent_witness :
    ((getModels c7dr).map Prod.fst).Nodup ∧
    (∀ p ∈ getModels c7dr, (p.2).isObj = true) ∧
    mergeRegistry (mergeRegistry c7cur c7dr) c7dr = mergeRegistry c7cur c7dr ∧
    promoteWithCurrent c7cur c7cur 3 "2025-03-01" = PromoteOutcome.skipped :=
  ⟨by decide, by decide,
   (merge_registry_idempotent_and_noop_skip c7cur c7dr (by decide) (by decide)).1,
   (merge_registry_idempotent_and_noop_skip c7cur c7cur (by decide) (by decide)).2
     3 "2025-03-01" (by decide)⟩

theorem recordVote_count_str (vs : List (String × List Val)) (f s : String)
    (hf : classifyField f = FieldClass.count) :
    recordVote vs (f, Val.str s) = vs := by
  unfold recordVote isLegalVote
  rw [hf]
  simp [Val.isIntLike]

/-- C6: a string value (such as `"N/A"`) supplied for a token-count
field is never recorded as a vote: the accumulator produces exactly the
ledger it would have produced had the candidate not mentioned the field
at all, so the field's vote list is unchanged; the merge is a total
function, so no error is raised either. -/
theorem count_field_string_never_votes (existing : LedgerRec)
    (pre post : List (String × Val)) (f s : String)
    (hf : classifyField f = FieldClass.count) :
    mergeModelRecord existing (pre ++ (f, Val.str s) :: post) =
      mergeModelRecord existing (pre ++ post) := by
  unfold mergeModelRecord
  have h : ∀ vs0 : List (String × List Val),
      (pre ++ (f, Val.str s) :: post).foldl recordVote vs0 =
        (pre ++ post).foldl recordVote vs0 := by
    intro vs0
    rw [List.foldl_append, List.foldl_append, List.foldl_cons,
      recordVote_count_str _ _ _ hf]
  simp only [h]

theorem count_field_string_never_votes_witness :
    classifyField "max_input_tokens" = FieldClass.count ∧
    mergeModelRecord
        ⟨[("model_name", Val.str "m"), ("max_input_tokens", Val.int 1000)], none⟩
        ([("max_output_tokens", Val.int 5)] ++ ("max_input_tokens", Val.str "N/A") :: []) =
      mergeModelRecord
        ⟨[("model_name", Val.str "m"), ("max_input_tokens", Val.int 1000)], none⟩
        ([("max_output_tokens", Val.int 5)] ++ []) :=
  ⟨by decide,
   count_field_string_never_votes
     ⟨[("model_name", Val.str "m"), ("max_input_tokens", Val.int 1000)], none⟩
     [("max_output_tokens", Val.int 5)] [] "max_input_tokens" "N/A" (by decide)⟩

theorem appendVote_at (vs : List (String × List Val)) (f : String) (v : Val) :
    lookupA (appendVote vs f v) f = some (getDA vs f [] ++ [v]) := by
  unfold appendVote getDA
  cases h : lookupA vs f with
  | some l => simp [lookupA_setA]
  | none => simp [lookupA_append, h, lookupA]

/-- C2, C5, C6 and C10 share this fact: a recorded legal vote lands at
the end of the field's vote list. -/
theorem votesAt_merge_single (existing : LedgerRec) (f : String) (v : Val)
    (hu : strStarts f "_" = false) (hl : isLegalVote f v = true) :
    votesAt (mergeModelRecord existing [(f, v)]) f =
      votesAt (mergeModelRecord existing []) f ++ [v] := by
  unfold mergeModelRecord votesAt
  simp only [List.foldl_cons, List.foldl_nil]
  unfold recordVote
  rw [hu]
  simp only [Bool.false_eq_true, if_false, hl, if_true]
  unfold getDA
  rw [appendVote_at]
  rfl

/-- C10: because Python booleans are integers, `True` passes the
accumulator's type check for price-class and token-count-class fields
and is appended to the ledger as a vote there; at resolution it counts
as a strictly positive numeric vote, so a lone `True` vote resolves the
field to Python `True`, whose numeric value is `1`. -/
theorem bool_vote_pollutes_numeric_fields (f g : String)
    (hp : classifyField f = FieldClass.price)
    (hc : classifyField g = FieldClass.count)
    (huf : strStarts f "_" = false) (hug : strStarts g "_" = false) :
    isLegalVote f (Val.bool true) = true ∧
    isLegalVote g (Val.bool true) = true ∧
    (∀ existing, votesAt (mergeModelRecord existing [(f, Val.bool true)]) f =
      votesAt (mergeModelRecord existing []) f ++ [Val.bool true]) ∧
    (∀ existing, votesAt (mergeModelRecord existing [(g, Val.bool true)]) g =
      votesAt (mergeModelRecord existing []) g ++ [Val.bool true]) ∧
    resolveField f [Val.bool true] = some (Val.bool true) ∧
    resolveField g [Val.bool true] = some (Val.bool true) ∧
    (Val.bool true).toNum = 1 ∧ isPositiveNum (Val.bool true) = true := by
  have hlf : isLegalVote f (Val.bool true) = true := by
    unfold isLegalVote
    rw [hp]
    rfl
  have hlg : isLegalVote g (Val.bool true) = true := by
    unfold isLegalVote
    rw [hc]
    rfl
  refine ⟨hlf, hlg, ?_, ?_, ?_, ?_, rfl, rfl⟩
  · intro existing
    exact votesAt_merge_single existing f (Val.bool true) huf hlf
  · intro existing
    exact votesAt_merge_single existing g (Val.bool true) hug hlg
  · rw [resolveField_price_branch f [Val.bool true]
      ((classify_price_iff f).mp hp) rfl]
    rfl
  · obtain ⟨h1, h2⟩ := (classify_count_iff g).mp hc
    by_cases htier : g = "requires_tier"
    · unfold resolveField
      have h1' := by simpa using h1
      rw [if_neg (by simp), if_neg (by simp [h1'.1, h1'.2]),
        if_pos (by simpa using h2), if_pos htier]
      rfl
    · rw [resolveField_count_branch g [Val.bool true] h1 h2 htier rfl]
      rfl

theorem bool_vote_pollutes_numeric_fields_witness :
    classifyField "dollars_per_million_tokens_input" = FieldClass.price ∧
    classifyField "max_input_tokens" = FieldClass.count ∧
    resolveField "dollars_per_million_tokens_input" [Val.bool true] = some (Val.bool true) ∧
    resolveField "max_input_tokens" [Val.bool true] = some (Val.bool true) ∧
    (Val.bool true).toNum = 1 :=
  ⟨by decide, by decide,
   (bool_vote_pollutes_numeric_fields "dollars_per_million_tokens_input"
     "max_input_tokens" (by decide) (by decide) (by decide) (by decide)).2.2.2.2.1,
   (bool_vote_pollutes_numeric_fields "dollars_per_million_tokens_input"
     "max_input_tokens" (by decide) (by decide) (by decide) (by decide)).2.2.2.2.2.1,
   rfl⟩

/-- C2: the pricing resolver considers only strictly positive numeric
votes.  When at least one positive vote exists, the resolved value is a
positive vote of maximal multiplicity, and among equally frequent
values the one whose first occurrence comes earliest in vote order wins
(so `[5.0, 5.0, 0.0]` resolves to `5.0`); when no vote is positive the
field resolves to null — an explicit `None` when every vote is zero or
`None`, otherwise by being left out of the resolved record, which reads
back as `None`. -/
theorem price_votes_resolution (f : String) (votes : List Val)
    (hf : classifyField f = FieldClass.price) :
    (((votes.filter isPositiveNum).isEmpty = false) →
      ∃ m, resolveField f votes = some m ∧
        m ∈ votes.filter isPositiveNum ∧
        (∀ v ∈ votes.filter isPositiveNum,
          countBy Val.pyEq (votes.filter isPositiveNum) v ≤
            countBy Val.pyEq (votes.filter isPositiveNum) m) ∧
        (∀ v ∈ votes.filter isPositiveNum,
          countBy Val.pyEq (votes.filter isPositiveNum) v =
            countBy Val.pyEq (votes.filter isPositiveNum) m →
          (votes.filter isPositiveNum).findIdx (fun w => Val.pyEq w m) ≤
            (votes.filter isPositiveNum).findIdx (fun w => Val.pyEq w v))) ∧
    (((votes.filter isPositiveNum).isEmpty = true) →
      resolveField f votes = some Val.null ∨ resolveField f votes = none) := by
  constructor
  · intro hpos
    have hne : votes.isEmpty = false := by
      cases votes with
      | nil => simp [List.filter] at hpos
      | cons a l => rfl
    rw [resolveField_price_branch f votes ((classify_price_iff f).mp hf) hne]
    unfold resolvePriceVotes
    rw [if_pos (by simp [hpos])]
    obtain ⟨m, hm, hmem, hmax⟩ :=
      mostCommonBy_spec Val.pyEq (votes.filter isPositiveNum) hpos
    refine ⟨m, hm, hmem, hmax, ?_⟩
    intro v hv heq
    have hnum : ∀ w ∈ votes.filter isPositiveNum, w.isNumLike = true := by
      intro w hw
      have hpw := (List.mem_filter.mp hw).2
      simp [isPositiveNum] at hpw
      exact hpw.1
    have hcong : ∀ x ∈ votes.filter isPositiveNum, ∀ y, Val.pyEq x y = true →
        isMaxCountBy Val.pyEq (votes.filter isPositiveNum) x =
          isMaxCountBy Val.pyEq (votes.filter isPositiveNum) y := by
      intro x hx y hxy
      have hxn := hnum x hx
      have hyn : y.isNumLike = true := by
        cases hy : y.isNumLike with
        | true => rfl
        | false =>
          rw [pyEq_mixed_false_right x y hxn hy] at hxy
          exact absurd hxy (by simp)
      exact isMaxCountBy_pyEq_congr _ x y hxn hyn hxy
    have hpv : isMaxCountBy Val.pyEq (votes.filter isPositiveNum) v = true := by
      unfold isMaxCountBy
      rw [List.all_eq_true]
      intro w hw
      have := hmax w hw
      exact decide_eq_true (by omega)
    exact find?_earliest (isMaxCountBy Val.pyEq (votes.filter isPositiveNum))
      Val.pyEq (votes.filter isPositiveNum) m v hcong hm
      (pyEq_refl_numlike m (hnum m hmem)) hv hpv
  · intro hpos
    cases hne : votes.isEmpty with
    | true =>
      right
      unfold resolveField
      rw [if_pos (by simp [hne])]
    | false =>
      rw [resolveField_price_branch f votes ((classify_price_iff f).mp hf) hne]
      unfold resolvePriceVotes
      rw [if_neg (by simp [hpos])]
      cases hz : votes.all (fun v => v.pyEqZero || v.isNull) with
      | true =>
        left
        rfl
      | false =>
        right
        rfl

theorem price_votes_resolution_witness :
    classifyField "dollars_per_million_tokens_input" = FieldClass.price ∧
    resolveField "dollars_per_million_tokens_input"
      [Val.float 5, Val.float 5, Val.float 0] = some (Val.float 5) ∧
    resolveField "dollars_per_million_tokens_input"
      [Val.float 0, Val.float 0] = some Val.null ∧
    ∃ m, resolveField "dollars_per_million_tokens_input"
        [Val.float 5, Val.float 5, Val.float 0] = some m ∧
      m ∈ [Val.float 5, Val.float 5, Val.float 0].filter isPositiveNum := by
  refine ⟨by decide, rfl, rfl, ?_⟩
  obtain ⟨m, h1, h2, _, _⟩ :=
    (price_votes_resolution "dollars_per_million_tokens_input"
      [Val.float 5, Val.float 5, Val.float 0] (by decide)).1 (by decide)
  exact ⟨m, h1, h2⟩

theorem pyFloat_numlike (v : Val) (hv : v.isNumLike = true) :
    pyFloat? v = some v.toNum := by
  cases v with
  | bool b => cases b <;> rfl
  | int n => rfl
  | float q => rfl
  | null => simp [Val.isNumLike] at hv
  | str s => simp [Val.isNumLike] at hv
  | arr l => simp [Val.isNumLike] at hv
  | obj e => simp [Val.isNumLike] at hv

/-- Whether a possibly-absent record value is a number or `None` — the
shape every base-price field of a resolver output or constructed
`ModelInfo` record has. -/
def numericOrNull (o : Option Val) : Bool :=
  match o with
  | none => true
  | some v => v.isNumLike || v.isNull

/-- Whether a possibly-absent base-price value is a strictly positive
number — present, numeric, and greater than zero. -/
def positivePrice (o : Option Val) : Bool :=
  match o with
  | some v => v.isNumLike && decide (0 < v.toNum)
  | none => false

theorem isNull_eq (v : Val) (h : v.isNull = true) : v = Val.null := by
  cases v <;> simp_all [Val.isNull]

/-- The value `float(record.get(field, 0))` takes on a numeric-or-null
field, as a function of the field's lookup result. -/
def pricedGetD (o : Option Val) : Option Rat :=
  match o with
  | none => some 0
  | some v => if v.isNull = true then none else some v.toNum

theorem pyFloat_getD (o : Option Val) (h : numericOrNull o = true) :
    pyFloat? (o.getD (Val.int 0)) = pricedGetD o := by
  cases o with
  | none => rfl
  | some v =>
    rw [Option.getD_some]
    unfold pricedGetD
    by_cases hn : v.isNull = true
    · rw [isNull_eq v hn]
      rfl
    · have hnum : v.isNumLike = true := by
        simp [numericOrNull] at h
        rcases h with h | h
        · exact h
        · exact absurd h hn
      rw [pyFloat_numlike v hnum]
      simp [hn]

/-- C4: on records whose base-price fields are numeric or null (the
shape of every resolved record — a boolean counts as numeric in Python),
the paid-model filter keeps a record exactly when both base prices are
present, numeric and strictly positive; null, missing, zero or negative
prices exclude the record.  The draft's model list is the filter's
output, so every record in it passes the filter, and every kept record
is one of the inputs. -/
theorem paid_filter_rule (md : List (String × Val))
    (models : List (List (String × Val)))
    (h1 : numericOrNull (lookupA md "dollars_per_million_tokens_input") = true)
    (h2 : numericOrNull (lookupA md "dollars_per_million_tokens_output") = true) :
    (isPaidModel md = true ↔
      positivePrice (lookupA md "dollars_per_million_tokens_input") = true ∧
      positivePrice (lookupA md "dollars_per_million_tokens_output") = true) ∧
    (∀ r ∈ filterPaidModels models, isPaidModel r = true) ∧
    (∀ r ∈ models, isPaidModel r = true → r ∈ filterPaidModels models) := by
  refine ⟨?_, ?_, ?_⟩
  · have e1 := pyFloat_getD _ h1
    have e2 := pyFloat_getD _ h2
    unfold isPaidModel getDA
    rw [e1, e2]
    cases hin : lookupA md "dollars_per_million_tokens_input" with
    | none =>
      cases hout : lookupA md "dollars_per_million_tokens_output" with
      | none => simp [positivePrice, pricedGetD]
      | some w =>
        by_cases hw : w.isNull = true <;>
          simp [positivePrice, pricedGetD, hw, show ¬ (0 : Rat) < 0 by norm_num]
    | some v =>
      by_cases hv : v.isNull = true
      · cases hout : lookupA md "dollars_per_million_tokens_output" with
        | none =>
          simp [positivePrice, pricedGetD, hv, isNull_eq v hv, Val.isNumLike, Val.isNull]
        | some w =>
          by_cases hw : w.isNull = true <;>
            simp [positivePrice, pricedGetD, hv, hw, isNull_eq v hv, Val.isNumLike, Val.isNull]
      · have hvnum : v.isNumLike = true := by
          simp [numericOrNull, hin] at h1
          rcases h1 with h | h
          · exact h
          · exact absurd h hv
        cases hout : lookupA md "dollars_per_million_tokens_output" with
        | none =>
          simp [positivePrice, pricedGetD, hv, hvnum, show ¬ (0 : Rat) < 0 by norm_num]
        | some w =>
          by_cases hw : w.isNull = true
          · simp [positivePrice, pricedGetD, hv, hw, isNull_eq w hw, Val.isNumLike, Val.isNull]
          · have hwnum : w.isNumLike = true := by
              simp [numericOrNull, hout] at h2
              rcases h2 with h | h
              · exact h
              · exact absurd h hw
            simp [positivePrice, pricedGetD, hv, hw, hvnum, hwnum]
  · intro r hr
    exact (List.mem_filter.mp hr).2
  · intro r hr hpaid
    exact List.mem_filter.mpr ⟨hr, hpaid⟩

theorem paid_filter_rule_witness :
    numericOrNull (lookupA
      [("dollars_per_million_tokens_input", Val.int 0),
       ("dollars_per_million_tokens_output", Val.float 12)]
      "dollars_per_million_tokens_input") = true ∧
    isPaidModel
      [("dollars_per_million_tokens_input", Val.int 0),
       ("dollars_per_million_tokens_output", Val.float 12)] = false ∧
    (isPaidModel
      [("dollars_per_million_tokens_input", Val.int 0),
       ("dollars_per_million_tokens_output", Val.float 12)] = true ↔
      positivePrice (lookupA
        [("dollars_per_million_tokens_input", Val.int 0),
         ("dollars_per_million_tokens_output", Val.float 12)]
        "dollars_per_million_tokens_input") = true ∧
      positivePrice (lookupA
        [("dollars_per_million_tokens_input", Val.int 0),
         ("dollars_per_million_tokens_output", Val.float 12)]
        "dollars_per_million_tokens_output") = true) ∧
    filterPaidModels
      [[("dollars_per_million_tokens_input", Val.int 0),
        ("dollars_per_million_tokens_output", Val.float 12)]] = [] :=
  ⟨by decide, by decide,
   (paid_filter_rule
     [("dollars_per_million_tokens_input", Val.int 0),
      ("dollars_per_million_tokens_output", Val.float 12)]
     [] (by decide) (by decide)).1,
   rfl⟩

/-- The record-admission gate of `_map_models`: a resolved record
reaches `ModelInfo` construction (and with it the capability flags)
only when `_validate_and_filter_models` keeps it — both base prices
present (not `None`), convertible under `float(...)` and non-negative —
and the constructor loop finds a truthy model identifier
(`model_id or model_name`) and strictly positive base prices via
`_maybe_float`. -/
def mapModelsAdmits (md : List (String × Val)) : Bool :=
  (match lookupA md "dollars_per_million_tokens_input",
         lookupA md "dollars_per_million_tokens_output" with
   | some vi, some vo =>
       if vi.isNull || vo.isNull then false
       else
         match pyFloat? vi, pyFloat? vo with
         | some i, some o => decide (0 ≤ i) && decide (0 ≤ o)
         | _, _ => false
   | _, _ => false) &&
  (pyTruthy (getDA md "model_id" Val.null) ||
    pyTruthy (getDA md "model_name" Val.null)) &&
  (match pyFloat? (getDA md "dollars_per_million_tokens_input" Val.null),
         pyFloat? (getDA md "dollars_per_million_tokens_output" Val.null) with
   | some i, some o => decide (0 < i) && decide (0 < o)
   | _, _ => false)

/-- Ledger for the C5 counterexample: one model seen once with a name
and positive base prices — so the resolved record passes
`_validate_and_filter_models` and the constructor's price gate and a
final record is built for it — but no capability field ever received a
boolean vote. -/
def c5ledger : LedgerRec :=
  ⟨[("model_name", Val.str "m"),
    ("dollars_per_million_tokens_input", Val.float 5),
    ("dollars_per_million_tokens_output", Val.float 15)],
   some [("model_name", [Val.str "m"]),
         ("dollars_per_million_tokens_input", [Val.float 5]),
         ("dollars_per_million_tokens_output", [Val.float 15])]⟩

/-- C5 counterexample: `supports_streaming` is a capability-boolean
field with no boolean votes in the ledger; the resolver leaves it out
of the resolved record, the record passes every gate of `_map_models`
(positive base prices and a model name), and the final record built for
it carries `supports_streaming = true` — not `false` — because the
constructor reads the flag with default `True`. -/
theorem capability_default_counterexample :
    classifyField "supports_streaming" = FieldClass.capabilityBool ∧
    votesAt c5ledger "supports_streaming" = [] ∧
    lookupA (resolveVotesRec c5ledger) "supports_streaming" = none ∧
    mapModelsAdmits (resolveVotesRec c5ledger) = true ∧
    (buildCapFlags (resolveVotesRec c5ledger)).supports_streaming = true :=
  ⟨by decide, rfl, rfl, rfl, rfl⟩

/-- C5 as amended: for a capability-boolean field, resolution returns
the most frequent boolean vote (a strict majority always wins), and a
field with no boolean votes is omitted from the resolved record; for a
resolved record that `_map_models` admits (so a final record exists),
an omitted flag takes the mapper's default in the final record, which
is `false` for flags like `supports_vision` but `true` for
`supports_streaming` and `is_active`, while `supports_temperature`,
`supports_system_message`, `supports_tool_choice` and
`supports_pdf_input` are not forwarded by the mapper at all and always
keep their dataclass defaults. -/
theorem capability_votes_resolution (f : String) (votes : List Val)
    (hf : classifyField f = FieldClass.capabilityBool) :
    (countBy Val.pyEq (votes.filter Val.isBool) (.bool false) <
        countBy Val.pyEq (votes.filter Val.isBool) (.bool true) →
      resolveField f votes = some (Val.bool true)) ∧
    (countBy Val.pyEq (votes.filter Val.isBool) (.bool true) <
        countBy Val.pyEq (votes.filter Val.isBool) (.bool false) →
      resolveField f votes = some (Val.bool false)) ∧
    ((votes.filter Val.isBool).isEmpty = true → resolveField f votes = none) ∧
    (∀ md, mapModelsAdmits md = true → lookupA md "supports_vision" = none →
      (buildCapFlags md).supports_vision = false) ∧
    (∀ md, mapModelsAdmits md = true → lookupA md "supports_streaming" = none →
      (buildCapFlags md).supports_streaming = true) ∧
    (∀ md, mapModelsAdmits md = true → lookupA md "is_active" = none →
      (buildCapFlags md).is_active = true) ∧
    (∀ md, mapModelsAdmits md = true →
      (buildCapFlags md).supports_temperature = true ∧
      (buildCapFlags md).supports_system_message = true ∧
      (buildCapFlags md).supports_tool_choice = true ∧
      (buildCapFlags md).supports_pdf_input = false) := by
  obtain ⟨h1, h2, h3⟩ := (classify_capbool_iff f).mp hf
  have hbool : ∀ v ∈ votes.filter Val.isBool, v.isBool = true := by
    intro v hv
    exact (List.mem_filter.mp hv).2
  have hbranch : ∀ b : Bool,
      countBy Val.pyEq (votes.filter Val.isBool) (.bool !b) <
        countBy Val.pyEq (votes.filter Val.isBool) (.bool b) →
      resolveField f votes = some (Val.bool b) := by
    intro b hmaj
    have hbne : (votes.filter Val.isBool).isEmpty = false := by
      cases hb : votes.filter Val.isBool with
      | nil => rw [hb] at hmaj; simp [countBy] at hmaj
      | cons a l => rfl
    have hne : votes.isEmpty = false := by
      cases votes with
      | nil => simp [List.filter] at hbne
      | cons a l => rfl
    rw [resolveField_bool_branch f votes h1 h2 h3 hne]
    unfold resolveBoolVotes
    rw [if_pos (by simp [hbne])]
    exact mostCommonBy_bool_majority (votes.filter Val.isBool) b hbool hmaj
  refine ⟨?_, ?_, ?_, ?_, ?_, ?_, ?_⟩
  · intro hmaj
    exact hbranch true (by simpa using hmaj)
  · intro hmaj
    exact hbranch false (by simpa using hmaj)
  · intro hempty
    cases hne : votes.isEmpty with
    | true =>
      unfold resolveField
      rw [if_pos (by simp [hne])]
    | false =>
      rw [resolveField_bool_branch f votes h1 h2 h3 hne]
      unfold resolveBoolVotes
      rw [if_neg (by simp [hempty])]
  · intro md _hadm h
    simp [buildCapFlags, getDA, h, pyTruthy]
  · intro md _hadm h
    simp [buildCapFlags, getDA, h, pyTruthy]
  · intro md _hadm h
    simp [buildCapFlags, getDA, h, pyTruthy]
  · intro md _hadm
    refine ⟨?_, ?_, ?_, ?_⟩ <;> simp [buildCapFlags]

/-- A resolved record with positive base prices and a model name — one
`_map_models` admits — carrying no capability votes, for the C5
witness. -/
def c5record : List (String × Val) :=
  [("model_name", Val.str "m"),
   ("dollars_per_million_tokens_input", Val.float 5),
   ("dollars_per_million_tokens_output", Val.float 15)]

theorem capability_votes_resolution_witness :
    classifyField "supports_vision" = FieldClass.capabilityBool ∧
    resolveField "supports_vision" [Val.bool true, Val.bool false, Val.bool true] =
      some (Val.bool true) ∧
    resolveField "supports_vision" ([] : List Val) = none ∧
    mapModelsAdmits c5record = true ∧
    (buildCapFlags c5record).supports_vision = false := by
  refine ⟨by decide, ?_, ?_, rfl, ?_⟩
  · exact (capability_votes_resolution "supports_vision"
      [Val.bool true, Val.bool false, Val.bool true] (by decide)).1 (by decide)
  · exact (capability_votes_resolution "supports_vision" [] (by decide)).2.2.1 (by decide)
  · exact (capability_votes_resolution "supports_vision" [] (by decide)).2.2.2.1
      c5record rfl rfl

/-- C9 counterexample: `speed_tier` belongs to `UPDATE_FIELDS` (it is in
`CAPABILITY_FIELDS`), yet the shared classifier assigns it the scalar
string class, not PRICE, COUNT or CAPABILITY_BOOL — so the "if and only
if" between the UPDATE set and the three classes fails. -/
theorem update_fields_classifier_counterexample :
    "speed_tier" ∈ UPDATE_FIELDS ∧
    classifyField "speed_tier" = FieldClass.strClass ∧
    isUpdateClass (classifyField "speed_tier") = false := by
  refine ⟨by decide, by decide, by decide⟩

/-- C9 as amended: over the model schema's field names, every field the
classifier assigns the PRICE, COUNT or CAPABILITY_BOOL class is in the
merge engine's UPDATE set, but the converse fails — `UPDATE_FIELDS`
additionally contains exactly the listed string-, list- and
numeric-class fields (dates, tiers, tool metadata and temperature
bounds), which are therefore overwritten for existing models even
though they are not price, count or capability-boolean fields. -/
theorem update_fields_classifier_relation :
    (∀ f ∈ modelInfoFields, isUpdateClass (classifyField f) = true →
      f ∈ UPDATE_FIELDS) ∧
    UPDATE_FIELDS.filter (fun f => !isUpdateClass (classifyField f)) =
      ["deprecated_date", "release_date", "max_temperature",
       "min_temperature", "max_tools", "temperature_values", "speed_tier",
       "intelligence_tier", "model_family", "recommended_use_cases",
       "api_endpoint", "tool_call_format"] := by
  constructor
  · decide
  · rfl

theorem update_fields_classifier_relation_witness :
    "max_input_tokens" ∈ modelInfoFields ∧
    isUpdateClass (classifyField "max_input_tokens") = true ∧
    "max_input_tokens" ∈ UPDATE_FIELDS :=
  ⟨by decide, by decide,
   update_fields_classifier_relation.1 "max_input_tokens" (by decide) (by decide)⟩

/-- The recomputation check of the claim (and of the repo's own
`test_promote_workflow`): a persisted catalogue's stored
`content_sha256_jcs` matches the hash of the catalogue with the hash
field removed. -/
def hashRecomputes (published : List (String × Val)) : Bool :=
  match lookupA published "content_sha256_jcs" with
  | some (Val.str s) => s.data = recomputedHash published
  | _ => false

/-- First draft promoted for the C3 analysis (integer prices, as
`json.dumps` renders Python ints and the registry's own test uses). -/
def c3draft1 : List (String × Val) :=
  [("provider", Val.str "openai"),
   ("models", Val.obj (ValObj.ofList
     [("openai:gpt-4o", Val.obj (ValObj.ofList
       [("provider", Val.str "openai"),
        ("model_name", Val.str "gpt-4o"),
        ("dollars_per_million_tokens_input", Val.int 1),
        ("dollars_per_million_tokens_output", Val.int 4)]))]))]

/-- Second draft: same model with a changed input price, so the second
promotion is not a no-op. -/
def c3draft2 : List (String × Val) :=
  [("provider", Val.str "openai"),
   ("models", Val.obj (ValObj.ofList
     [("openai:gpt-4o", Val.obj (ValObj.ofList
       [("provider", Val.str "openai"),
        ("model_name", Val.str "gpt-4o"),
        ("dollars_per_million_tokens_input", Val.int 2),
        ("dollars_per_million_tokens_output", Val.int 4)]))]))]

/-- The catalogue published by the first promotion (no existing
registry, version `0 → 1`). -/
def c3published1 : List (String × Val) :=
  promoteFresh c3draft1 0 "2025-01-01T00:00:00"

/-- The catalogue published by the second promotion (merging `c3draft2`
into `c3published1`, version `1 → 2`). -/
def c3published2 : List (String × Val) :=
  stampAndHash (mergeRegistry c3published1 c3draft2) 2 "2025-02-01T00:00:00"

set_option maxRecDepth 20000 in
/-- C3: the content-hash invariant holds after the first promotion, but
the second promotion — whose input still carries the previous
catalogue's `content_sha256_jcs` — computes the new hash over a record
that includes the stale hash field, so recomputing the hash of the
persisted catalogue with its hash field removed no longer reproduces
the stored value: the canonical hash preimages differ, hence the
SHA-256 digests differ short of a collision. -/
theorem content_hash_recompute_bug :
    hashRecomputes c3published1 = true ∧
    promoteWithCurrent c3published1 c3draft2 1 "2025-02-01T00:00:00" =
      PromoteOutcome.promoted 2 c3published2 ∧
    lookupA (mergeRegistry c3published1 c3draft2) "content_sha256_jcs" =
      lookupA c3published1 "content_sha256_jcs" ∧
    hashRecomputes c3published2 = false := by
  refine ⟨by decide, ?_, rfl, by decide⟩
  unfold promoteWithCurrent
  rw [if_neg (by decide)]
  rfl
